import Mathlib

/-!
Verification development for the tabular data-validation, statistics,
anomaly-detection, filtering and record-adaptation pipeline of
`src/utils/data_processor.py` (class `DataProcessor`).

The module is embedded shallowly:

* A pandas `DataFrame` is an ordered list of named columns together with an
  explicit row index (pandas index labels), since `iterrows` and in-place
  mutation are visible in the source.
* Cell values are modelled by `Value`: exact rationals stand for Python/numpy
  floats (the claims under study are about control flow, guards and exact
  thresholds, not rounding), `nan` for float NaN, `str` for object/string
  cells, `time` for datetime cells and `bool` for booleans.
* Statistics that can leave ℚ (IEEE division producing ±inf/NaN, square
  roots) are modelled exactly: `PVal` extends ℚ with `pinf`, `ninf`, `nan`
  following IEEE semantics, and standard deviations are recorded as
  `StatVal.sqrtOf v` (the nonnegative square root of the variance `v`),
  which keeps every definition executable.
* Fallible Python code (raised exceptions such as `KeyError` or a failing
  `float(...)` conversion) is modelled with `Option`.
-/

/-- A cell value of a pandas DataFrame, as used by `data_processor.py`:
an exact rational stands for a float, `nan` for float NaN, `str` for an
object/string cell, `time` for a datetime cell (an abstract clock reading)
and `bool` for a boolean cell. -/
inductive Value where
  | num : ℚ → Value
  | nan : Value
  | str : String → Value
  | time : Int → Value
  | bool : Bool → Value
deriving DecidableEq, Repr

/-- `True` exactly on numeric (float) cells. -/
def Value.isNum : Value → Bool
  | .num _ => true
  | _ => false

/-- `pd.isna` on a cell: only float NaN counts here. -/
def Value.isNan : Value → Bool
  | .nan => true
  | _ => false

/-- Cells that give a pandas column `object` dtype (strings) or datetime
dtype: numeric aggregation such as `rolling`/`ewm` raises on these, which the
embedding reports as `none`.  Datetime columns are outside the measurement
data model of the spec.  -/
def Value.isObj : Value → Bool
  | .str _ => true
  | .time _ => true
  | _ => false

/-- The numeric entries of a column, in order — pandas aggregations
(`mean`, `std`, `quantile`, `sum`, …) skip NaN (`skipna=True` default). -/
def numsOf (vs : List Value) : List ℚ :=
  vs.filterMap (fun v => match v with | .num q => some q | _ => none)

/-- An IEEE-style value: a finite rational, `+inf`, `-inf` or NaN.  Used for
aggregate statistics, where numpy float division by zero produces
±inf or NaN (with a warning, not an exception). -/
inductive PVal where
  | fin : ℚ → PVal
  | pinf : PVal
  | ninf : PVal
  | nan : PVal
deriving DecidableEq, Repr

/-- IEEE multiplication on `PVal` (exact on finite operands). -/
def PVal.mul : PVal → PVal → PVal
  | .fin a, .fin b => .fin (a * b)
  | .fin a, .pinf => if 0 < a then .pinf else if a < 0 then .ninf else .nan
  | .fin a, .ninf => if 0 < a then .ninf else if a < 0 then .pinf else .nan
  | .pinf, .fin b => if 0 < b then .pinf else if b < 0 then .ninf else .nan
  | .ninf, .fin b => if 0 < b then .ninf else if b < 0 then .pinf else .nan
  | .pinf, .pinf => .pinf
  | .pinf, .ninf => .ninf
  | .ninf, .pinf => .ninf
  | .ninf, .ninf => .pinf
  | .nan, _ => .nan
  | _, .nan => .nan

/-- IEEE division on `PVal`: a finite nonzero value divided by zero is a
signed infinity, `0/0` is NaN — numpy emits a `RuntimeWarning` but returns
these values rather than raising. -/
def PVal.div : PVal → PVal → PVal
  | .fin a, .fin b =>
      if b = 0 then (if a = 0 then .nan else if 0 < a then .pinf else .ninf)
      else .fin (a / b)
  | .fin _, .pinf => .fin 0
  | .fin _, .ninf => .fin 0
  | .pinf, .fin b => if 0 ≤ b then .pinf else .ninf
  | .ninf, .fin b => if 0 ≤ b then .ninf else .pinf
  | .pinf, .pinf => .nan
  | .pinf, .ninf => .nan
  | .ninf, .pinf => .nan
  | .ninf, .ninf => .nan
  | .nan, _ => .nan
  | _, .nan => .nan

/-- A pandas DataFrame: an explicit row index (the pandas index labels,
restricted to integer labels as produced by the repository's constructors)
and an ordered list of named columns. -/
structure DataFrame where
  index : List Int
  cols : List (String × List Value)
deriving DecidableEq, Repr

/-- `df.columns`. -/
def DataFrame.columns (df : DataFrame) : List String :=
  df.cols.map Prod.fst

/-- `df[c]` as a read: the first column labelled `c`, if any
(`none` models a raised `KeyError`). -/
def DataFrame.getCol (df : DataFrame) (c : String) : Option (List Value) :=
  (df.cols.find? (fun p => decide (p.1 = c))).map Prod.snd

/-- `df[c] = vs`: overwrite the column labelled `c` in place if present,
otherwise append a new column at the end (pandas column assignment). -/
def DataFrame.setCol (df : DataFrame) (c : String) (vs : List Value) : DataFrame :=
  if c ∈ df.columns then
    ⟨df.index, df.cols.map (fun p => if p.1 = c then (c, vs) else p)⟩
  else
    ⟨df.index, df.cols ++ [(c, vs)]⟩

/-- `df.rename(columns={a: b}, inplace=True)`: every column labelled `a`
is relabelled `b`. -/
def DataFrame.renameCol (df : DataFrame) (a b : String) : DataFrame :=
  ⟨df.index, df.cols.map (fun p => if p.1 = a then (b, p.2) else p)⟩

/-- Decimal-literal parsing, modelling the numeric string conversion done by
`pd.to_numeric` / `float(...)` on plain decimal literals (optional sign,
digits, optional fractional part).  Which further exotic forms Python accepts
is immaterial to the claims; parsing is deterministic. -/
def natFromDigits (cs : List Char) : ℕ :=
  cs.foldl (fun a c => a * 10 + (c.toNat - 48)) 0

/-- See `natFromDigits`; `none` models a raised `ValueError` (or a NaN from
`errors='coerce'`). -/
def parseRat (s : String) : Option ℚ :=
  let cs := s.toList
  let signed : ℚ × List Char :=
    match cs with
    | '-' :: r => (-1, r)
    | '+' :: r => (1, r)
    | r => (1, r)
  let ip := signed.2.takeWhile (fun c => c ≠ '.')
  let rest := signed.2.dropWhile (fun c => c ≠ '.')
  let fp := rest.drop 1
  if ip.all Char.isDigit ∧ fp.all Char.isDigit ∧ (ip ≠ [] ∨ fp ≠ []) ∧
      fp.all (fun c => c ≠ '.') then
    some (signed.1 * ((natFromDigits ip : ℚ) + (natFromDigits fp : ℚ) / (10 : ℚ) ^ fp.length))
  else
    none

/-- `pd.to_numeric(v, errors='coerce')` on one cell: numbers pass through,
booleans become 0/1, strings parse or coerce to NaN, datetimes take their
integer clock value. -/
def toNumericVal : Value → Value
  | .num q => .num q
  | .nan => .nan
  | .bool b => .num (if b then 1 else 0)
  | .str s => match parseRat s with | some q => .num q | none => .nan
  | .time t => .num t

theorem toNumericVal_idem (v : Value) : toNumericVal (toNumericVal v) = toNumericVal v := by
  cases v with
  | str s => simp only [toNumericVal]; cases parseRat s <;> simp [toNumericVal]
  | _ => rfl

/-! ### `DataProcessor.validate_experiment_data` (lines 19-82)

The Python function mutates its argument (in-place rename and in-place
numeric coercion) and returns `(valid, errors)`; the embedding makes the
mutation explicit by also returning the mutated table. -/

/-- The canonical (required) measurement columns of
`validate_experiment_data` — also `numeric_columns` of
`calculate_statistics`. -/
def requiredColumns : List String := ["电流", "电压", "功率"]

/-- Alias lists of `alt_columns` for `电流`, `电压`, `功率`. -/
def currentAlts : List String := ["current", "Current", "I", "i"]

/-- See `currentAlts`. -/
def voltageAlts : List String := ["voltage", "Voltage", "V", "v"]

/-- See `currentAlts`. -/
def powerAlts : List String := ["power", "Power", "P", "p"]

/-- One pass of the alias-normalisation loop: if the canonical name `cn` is
absent, the first present alias is renamed to `cn` (then `break`); if `cn`
is already present nothing happens (the loop condition
`cn_name not in df.columns` fails for every alias). -/
def groupStep (cn : String) (alts : List String) (df : DataFrame) : DataFrame :=
  if cn ∈ df.columns then df
  else
    match alts.find? (fun a => decide (a ∈ df.columns)) with
    | some a => df.renameCol a cn
    | none => df

/-- The full `标准化列名` loop, in the source's dict-insertion order
`电流`, `电压`, `功率`. -/
def normalizeCols (df : DataFrame) : DataFrame :=
  groupStep ("功率") powerAlts (groupStep ("电压") voltageAlts (groupStep ("电流") currentAlts df))

/-- `df[col] = pd.to_numeric(df[col], errors='coerce')` for one required
column, skipped when the column is absent. -/
def coerceCol (df : DataFrame) (c : String) : DataFrame :=
  match df.getCol c with
  | none => df
  | some vs => df.setCol c (vs.map toNumericVal)

/-- The `检查数据类型` coercion loop over the three required columns. -/
def coerceCols (df : DataFrame) : DataFrame :=
  coerceCol (coerceCol (coerceCol df ("电流")) ("电压")) ("功率")

/-- The `缺少必需列` error (checked on the renamed, pre-coercion table). -/
def missingErrors (df : DataFrame) : List String :=
  let missing := requiredColumns.filter (fun c => decide (c ∉ df.columns))
  if missing.isEmpty then [] else ["缺少必需列: " ++ String.intercalate (", ") missing]

/-- The per-column `包含非数值数据` errors, checked on the freshly coerced
columns (a cell that failed coercion is NaN). -/
def numericErrors (df : DataFrame) : List String :=
  requiredColumns.filterMap (fun c =>
    match df.getCol c with
    | some vs => if vs.any Value.isNan then some ("列 '" ++ c ++ "' 包含非数值数据") else none
    | none => none)

/-- Elementwise `series < bound` on a cell; comparisons involving NaN (or any
non-float cell) are `False` in pandas. -/
def valLt (v : Value) (q : ℚ) : Bool :=
  match v with
  | .num a => decide (a < q)
  | _ => false

/-- See `valLt`. -/
def valGt (v : Value) (q : ℚ) : Bool :=
  match v with
  | .num a => decide (q < a)
  | _ => false

/-- The `检查数据范围` errors: current within [0, 1000], voltage within
[0, 10000], each direction reported separately. -/
def rangeErrors (df : DataFrame) : List String :=
  (match df.getCol ("电流") with
   | some vs =>
      (if vs.any (fun v => valLt v 0) then ["电流值不能为负数"] else []) ++
      (if vs.any (fun v => valGt v 1000) then ["电流值超出合理范围 (>1000A)"] else [])
   | none => []) ++
  (match df.getCol ("电压") with
   | some vs =>
      (if vs.any (fun v => valLt v 0) then ["电压值不能为负数"] else []) ++
      (if vs.any (fun v => valGt v 10000) then ["电压值超出合理范围 (>10000V)"] else [])
   | none => [])

/-- NaN-propagating cell multiplication (for `df['电流'] * df['电压']`;
range-checked columns are numeric-or-NaN after coercion). -/
def vMul : Value → Value → Value
  | .num a, .num b => .num (a * b)
  | _, _ => .nan

/-- NaN-propagating cell subtraction. -/
def vSub : Value → Value → Value
  | .num a, .num b => .num (a - b)
  | _, _ => .nan

/-- NaN-propagating cell absolute value. -/
def vAbs : Value → Value
  | .num a => .num |a|
  | _ => .nan

/-- Elementwise `series > series`; NaN compares `False`. -/
def vGt : Value → Value → Bool
  | .num a, .num b => decide (b < a)
  | _, _ => false

/-- The `检查功率计算` cross-field error: one aggregate error when any row's
`|power - current*voltage|` exceeds `current*voltage * 0.05`. -/
def powerErrors (df : DataFrame) : List String :=
  if ("电流") ∈ df.columns ∧ ("电压") ∈ df.columns ∧ ("功率") ∈ df.columns then
    let iv := (df.getCol ("电流")).getD []
    let vv := (df.getCol ("电压")).getD []
    let pv := (df.getCol ("功率")).getD []
    let cp := List.zipWith vMul iv vv
    let diff := List.zipWith (fun p c => vAbs (vSub p c)) pv cp
    if (List.zipWith (fun d c => vGt d (vMul c (.num (1/20)))) diff cp).any id then
      ["功率值与电流电压计算值偏差过大"]
    else []
  else []

/-- `DataProcessor.validate_experiment_data`: returns
`(valid, errors, mutated table)`; `valid = (len(errors) == 0)`.  The third
component is the argument after the function's in-place rename and numeric
coercion. -/
def validate_experiment_data (df : DataFrame) : Bool × List String × DataFrame :=
  let d1 := normalizeCols df
  let d2 := coerceCols d1
  let errs := missingErrors d1 ++ numericErrors d2 ++ rangeErrors d2 ++ powerErrors d2
  (errs.isEmpty, errs, d2)

/-! ### `DataProcessor.calculate_statistics` (lines 122-150) -/

/-- Exact mean of a list of rationals (callers guard emptiness). -/
def ratMean (ys : List ℚ) : ℚ :=
  ys.sum / ys.length

/-- Exact sample variance with Bessel's correction (`ddof=1`), the square of
pandas `Series.std` (callers guard `length ≤ 1`, where pandas yields NaN). -/
def ratSampleVar (ys : List ℚ) : ℚ :=
  (ys.map (fun y => (y - ratMean ys) ^ 2)).sum / ((ys.length : ℚ) - 1)

/-- `Series.mean()`: NaN-skipping mean, NaN when no numeric entry exists. -/
def pmean (vs : List Value) : PVal :=
  let ys := numsOf vs
  if ys.isEmpty then .nan else .fin (ratMean ys)

/-- `Series.max()`: NaN-skipping maximum, NaN on an all-NaN/empty column. -/
def pmax (vs : List Value) : PVal :=
  match numsOf vs with
  | [] => .nan
  | y :: ys => .fin (ys.foldl max y)

/-- `Series.min()`. -/
def pmin (vs : List Value) : PVal :=
  match numsOf vs with
  | [] => .nan
  | y :: ys => .fin (ys.foldl min y)

/-- `Series.std()` squared: the sample variance, NaN when fewer than two
numeric entries exist (`ddof=1`). -/
def pvar (vs : List Value) : PVal :=
  let ys := numsOf vs
  if ys.length ≤ 1 then .nan else .fin (ratSampleVar ys)

/-- `Series.median()`: NaN-skipping; the middle of the sorted numeric
entries, or the mean of the two middles for an even count. -/
def pmedian (vs : List Value) : PVal :=
  let s := List.insertionSort (fun a b : ℚ => a ≤ b) (numsOf vs)
  if s.length = 0 then .nan
  else if s.length % 2 = 1 then .fin (s.getD (s.length / 2) 0)
  else .fin ((s.getD (s.length / 2 - 1) 0 + s.getD (s.length / 2) 0) / 2)

/-- `Series.sum()`: NaN-skipping; pandas returns `0.0` on an empty or
all-NaN column, so the result is always finite. -/
def psum (vs : List Value) : PVal :=
  .fin (numsOf vs).sum

/-- A value of the statistics dictionary.  `q v` is the plain IEEE value
`v`; `sqrtOf v` is the nonnegative square root of `v` (used for the
`_标准差` entries, whose square root leaves ℚ — no claim inspects them). -/
inductive StatVal where
  | q : PVal → StatVal
  | sqrtOf : PVal → StatVal
deriving DecidableEq, Repr

/-- The five per-column entries of the `calculate_statistics` loop body for
one of `电流`, `电压`, `功率` (absent columns contribute nothing). -/
def colStats (df : DataFrame) (col : String) : List (String × StatVal) :=
  match df.getCol col with
  | none => []
  | some vs =>
    [(col ++ "_平均值", .q (pmean vs)),
     (col ++ "_最大值", .q (pmax vs)),
     (col ++ "_最小值", .q (pmin vs)),
     (col ++ "_标准差", .sqrtOf (pvar vs)),
     (col ++ "_中位数", .q (pmedian vs))]

/-- The `计算额外指标` block: cumulative energy `sum(power) * 0.001` and the
power factor `mean(power) / (mean(current) * mean(voltage))` — the `else 0`
of the source's conditional expression fires only when `电流` or `电压` is
absent; a zero denominator goes through IEEE division. -/
def extraStats (df : DataFrame) : List (String × StatVal) :=
  match df.getCol ("功率") with
  | none => []
  | some pv =>
    [("总能量", .q (PVal.mul (psum pv) (.fin (1/1000)))),
     ("功率因数", .q (
        if ("电流") ∈ df.columns ∧ ("电压") ∈ df.columns then
          PVal.div (pmean pv)
            (PVal.mul (pmean ((df.getCol ("电流")).getD []))
                      (pmean ((df.getCol ("电压")).getD [])))
        else .fin 0))]

/-- `DataProcessor.calculate_statistics`: the ordered statistics dictionary
(the `for col in numeric_columns` loop unrolled over the fixed list
`电流`, `电压`, `功率`, then the extra metrics). -/
def calculate_statistics (df : DataFrame) : List (String × StatVal) :=
  colStats df ("电流") ++ colStats df ("电压") ++ colStats df ("功率") ++ extraStats df

/-! ### `DataProcessor.detect_anomalies` (lines 152-183) -/

/-- `Series.quantile(p)` with the default linear interpolation over the
sorted NaN-free entries; `none` is pandas' NaN answer for an empty column. -/
def ratQuantile (ys : List ℚ) (p : ℚ) : Option ℚ :=
  let s := List.insertionSort (fun a b : ℚ => a ≤ b) ys
  if s.length = 0 then none
  else
    let h : ℚ := p * ((s.length : ℚ) - 1)
    let j : ℕ := (Int.toNat ⌊h⌋)
    let g : ℚ := h - ⌊h⌋
    some (s.getD j 0 + g * (s.getD (j + 1) (s.getD j 0) - s.getD j 0))

/-- The IQR anomaly flags: value below `Q1 - 1.5*IQR` or above
`Q3 + 1.5*IQR`; NaN cells never compare true.  An empty numeric column gives
NaN bounds, hence no flag. -/
def iqrFlags (vs : List Value) : List Bool :=
  match ratQuantile (numsOf vs) (1/4), ratQuantile (numsOf vs) (3/4) with
  | some q1, some q3 =>
    let iqr := q3 - q1
    let lb := q1 - 3/2 * iqr
    let ub := q3 + 3/2 * iqr
    vs.map (fun v => match v with
      | .num x => decide (x < lb ∨ ub < x)
      | _ => false)
  | _, _ => vs.map (fun _ => false)

/-- The Z-score anomaly flags, `np.abs((x - mean) / std) > 3` elementwise.
`std = sqrt (ratSampleVar ys)` leaves ℚ, so the comparison is embedded in
its exact squared form, case by case:
* fewer than two numeric entries: `std` is NaN, every z-score is NaN and
  `NaN > 3` is `False`;
* `std = 0` (variance zero): the source divides by zero — `0/0` is NaN
  (value equal to the mean, no flag) and `x ≠ mean` would give `+inf > 3`
  (flag), exactly `decide (x ≠ m)`;
* `std > 0`: `|x - m| / std > 3  ↔  (x - m)^2 > 9 * var`;
* a NaN cell has NaN z-score: no flag. -/
def zscoreFlags (vs : List Value) : List Bool :=
  let ys := numsOf vs
  if ys.length ≤ 1 then vs.map (fun _ => false)
  else
    let m := ratMean ys
    let s2 := ratSampleVar ys
    vs.map (fun v => match v with
      | .num x => if s2 = 0 then decide (x ≠ m) else decide (9 * s2 < (x - m) ^ 2)
      | _ => false)

/-- `DataProcessor.detect_anomalies`: works on `df.copy()`, appends the
boolean `异常` column for the `iqr` and `zscore` methods, and returns the
copy unchanged for any other method.  `none` models the `KeyError` /
`TypeError` raised when the column is absent or has object dtype. -/
def detect_anomalies (df : DataFrame) (column : String) (method : String) : Option DataFrame :=
  if method = "iqr" then
    (df.getCol column).bind (fun vs =>
      if vs.any Value.isObj then none
      else some (df.setCol ("异常") ((iqrFlags vs).map Value.bool)))
  else if method = "zscore" then
    (df.getCol column).bind (fun vs =>
      if vs.any Value.isObj then none
      else some (df.setCol ("异常") ((zscoreFlags vs).map Value.bool)))
  else some df

/-! ### `DataProcessor.filter_data` (lines 295-326) -/

/-- The numeric contents of a rolling window, `none` when the window holds
any non-float observation — with `min_periods = window`, a NaN inside the
window makes the aggregate NaN. -/
def allNums : List Value → Option (List ℚ)
  | [] => some []
  | .num q :: r => (allNums r).map (fun qs => q :: qs)
  | _ => none

/-- `Series.rolling(window=w, center=True).agg(f)`: pandas places the window
for output position `i` at input positions `i + (w-1)/2 + 1 - w … i + (w-1)/2`
(`FixedWindowIndexer` with `offset = (w-1) // 2`); with the default
`min_periods = w` a position whose window does not fully fit — or contains a
NaN — yields NaN. -/
def rollingApply (f : List ℚ → ℚ) (w : ℕ) (xs : List Value) : List Value :=
  (List.range xs.length).map (fun i =>
    if w ≤ i + (w - 1) / 2 + 1 ∧ i + (w - 1) / 2 < xs.length then
      match allNums ((xs.drop (i + (w - 1) / 2 + 1 - w)).take w) with
      | some qs => Value.num (f qs)
      | none => Value.nan
    else Value.nan)

/-- Rolling mean aggregate. -/
def ratMedianList (qs : List ℚ) : ℚ :=
  let s := List.insertionSort (fun a b : ℚ => a ≤ b) qs
  if s.length % 2 = 1 then s.getD (s.length / 2) 0
  else (s.getD (s.length / 2 - 1) 0 + s.getD (s.length / 2) 0) / 2

/-- One step of pandas `ewm(span=w, adjust=False).mean()` (`ewm.pyx`,
`ignore_na=False`): the state is `some (old_wt, wa)` once a first numeric
observation fixed the mean `wa`; each period multiplies `old_wt` by `1-α`;
a numeric observation updates
`wa := (old_wt*wa + α*x) / (old_wt + α)` and resets `old_wt := 1`; a NaN
period outputs the carried mean unchanged.  Before any observation the
output is NaN. -/
def emaStep (a : ℚ) (st : Option (ℚ × ℚ)) (v : Value) : Option (ℚ × ℚ) × Value :=
  match st, v with
  | none, .num x => (some (1, x), .num x)
  | none, _ => (none, .nan)
  | some (w, wa), .num x =>
      let w' := w * (1 - a)
      let wa' := (w' * wa + a * x) / (w' + a)
      (some (1, wa'), .num wa')
  | some (w, wa), _ => (some (w * (1 - a), wa), .num wa)

/-- The `ewm` loop from a given carried state: one output per input. -/
def emaFrom (a : ℚ) (st : Option (ℚ × ℚ)) : List Value → List Value
  | [] => []
  | v :: r => (emaStep a st v).2 :: emaFrom a (emaStep a st v).1 r

/-- `Series.ewm(span=w, adjust=False).mean()`: the loop starts with no
observation seen. -/
def emaVals (a : ℚ) (xs : List Value) : List Value :=
  emaFrom a none xs

/-- The `填充边缘值` step, `filtered.fillna(df[column])`: both series are
columns of the same frame with the same index, so label alignment is
positional. -/
def fillnaWith (orig filt : List Value) : List Value :=
  List.zipWith (fun f o => if f.isNan then o else f) filt orig

/-- `DataProcessor.filter_data`: works on `df.copy()`; computes the
`{column}_filtered` series by centered rolling mean, exponential moving
average (`span = window_size, adjust=False`) or centered rolling median,
then fills remaining NaN positions from the raw column.  `none` models the
exceptions pandas raises: `KeyError` for an absent column (or, for an
unrecognised method, for an absent `{column}_filtered` at the final
`fillna`), a dtype error for object/datetime columns, and the rejection of
a nonpositive window/span. -/
def filter_data (df : DataFrame) (column : String) (method : String) (window_size : ℕ) :
    Option DataFrame :=
  if method = "moving_average" ∨ method = "exponential" ∨ method = "median" then
    match df.getCol column with
    | none => none
    | some vs =>
      if vs.any Value.isObj then none
      else if window_size = 0 then none
      else
        let filtered :=
          if method = "moving_average" then rollingApply ratMean window_size vs
          else if method = "exponential" then emaVals (2 / ((window_size : ℚ) + 1)) vs
          else rollingApply ratMedianList window_size vs
        some (df.setCol (column ++ "_filtered") (fillnaWith vs filtered))
  else
    match df.getCol (column ++ "_filtered"), df.getCol column with
    | some fvs, some vs => some (df.setCol (column ++ "_filtered") (fillnaWith vs fvs))
    | _, _ => none

/-! ### `DataProcessor.prepare_for_database` (lines 211-245) -/

/-- One persistence record (the dict built per row). -/
structure PRecord where
  experiment_id : String
  sequence_number : Int
  current : Value
  voltage : Value
  power : Value
  device_address : Int
  device_type : String
  timestamp : Value
  temperature : Option Value
  humidity : Option Value
deriving DecidableEq, Repr

/-- `row.get(c, d)` for the row at position `i`: the column's cell when the
column exists, the default otherwise (columns of a well-formed frame cover
every row). -/
def rowGetD (df : DataFrame) (i : ℕ) (c : String) (d : Value) : Value :=
  match df.getCol c with
  | none => d
  | some vs => vs.getD i d

/-- Python `float(v)`: floats and NaN pass through, booleans become 0/1,
decimal strings parse (`none` = raised `ValueError` otherwise), datetimes
raise `TypeError`. -/
def pyFloat : Value → Option Value
  | .num q => some (.num q)
  | .nan => some .nan
  | .bool b => some (.num (if b then 1 else 0))
  | .str s => (parseRat s).map Value.num
  | .time _ => none

/-- Truncation toward zero, Python `int()` on a float. -/
def ratTrunc (q : ℚ) : Int :=
  if 0 ≤ q then ⌊q⌋ else ⌈q⌉

/-- Python `int(v)`: truncates floats, converts booleans, parses integer
literals; `int(NaN)` and `int(datetime)` raise (`none`). -/
def pyInt : Value → Option Int
  | .num q => some (ratTrunc q)
  | .bool b => some (if b then 1 else 0)
  | .nan => none
  | .str s =>
      match parseRat s with
      | some q => if q.den = 1 ∧ (s.toList.all (fun c => c ≠ '.')) then some q.num else none
      | none => none
  | .time _ => none

/-- Python `str(v)`.  The exact rendering of non-string cells is immaterial
to every claim; string cells pass through as in Python. -/
def pyStr : Value → String
  | .str s => s
  | .num q => toString q
  | .nan => "nan"
  | .time t => toString t
  | .bool b => toString b

/-- The optional `temperature`/`humidity` field: omitted (`some none`) when
the column is absent, otherwise `float(row[c])` (whose failure aborts the
call). -/
def optField (df : DataFrame) (i : ℕ) (c : String) : Option (Option Value) :=
  match df.getCol c with
  | none => some none
  | some vs => (pyFloat (vs.getD i .nan)).map some

/-- The record built for the row at position `i` with pandas index label
`idx`: `sequence_number` is `idx + 1` (the *label*, not the position);
missing `电流`/`电压`/`功率` default to `float(0)`; `时间戳` defaults to the
clock (`now = datetime.now()`). -/
def mkRecord (df : DataFrame) (eid : String) (now : Value) (i : ℕ) (idx : Int) :
    Option PRecord := do
  let cur ← pyFloat (rowGetD df i ("电流") (.num 0))
  let vol ← pyFloat (rowGetD df i ("电压") (.num 0))
  let pw ← pyFloat (rowGetD df i ("功率") (.num 0))
  let addr ← pyInt (rowGetD df i ("设备地址") (.num 1))
  let temp ← optField df i ("温度")
  let hum ← optField df i ("湿度")
  some { experiment_id := eid, sequence_number := idx + 1, current := cur, voltage := vol,
         power := pw, device_address := addr,
         device_type := pyStr (rowGetD df i ("设备类型") (.str "未知")),
         timestamp := rowGetD df i ("时间戳") now, temperature := temp, humidity := hum }

/-- The `for idx, row in df.iterrows()` loop: `idxs` are the remaining index
labels, `i` the current row position. -/
def prepRecords (df : DataFrame) (eid : String) (now : Value) :
    List Int → ℕ → Option (List PRecord)
  | [], _ => some []
  | idx :: rest, i => do
      let r ← mkRecord df eid now i idx
      let rs ← prepRecords df eid now rest (i + 1)
      some (r :: rs)

/-- `DataProcessor.prepare_for_database`.  `now` abstracts the
`datetime.now()` clock; `none` models a raised conversion error. -/
def prepare_for_database (df : DataFrame) (experiment_id : String) (now : Value) :
    Option (List PRecord) :=
  prepRecords df experiment_id now df.index 0

/-! ### Basic lemmas about the DataFrame operations -/

theorem find?_overwrite (l : List (String × List Value)) (c : String) (vs : List Value)
    (h : c ∈ l.map Prod.fst) :
    (l.map (fun p => if p.1 = c then (c, vs) else p)).find? (fun p => decide (p.1 = c)) =
      some (c, vs) := by
  induction l with
  | nil => simp at h
  | cons p ps ih =>
    by_cases hp : p.1 = c
    · simp [List.find?, hp]
    · have hc : c ∈ ps.map Prod.fst := by
        rcases List.mem_cons.mp h with h1 | h2
        · exact absurd h1.symm hp
        · exact h2
      simp [List.find?, hp, ih hc]

theorem find?_append_fresh (l : List (String × List Value)) (c : String) (vs : List Value)
    (h : c ∉ l.map Prod.fst) :
    (l ++ [(c, vs)]).find? (fun p => decide (p.1 = c)) = some (c, vs) := by
  induction l with
  | nil => simp [List.find?]
  | cons p ps ih =>
    have hp : p.1 ≠ c := fun hc => h (by simp [hc])
    have hc : c ∉ ps.map Prod.fst := fun hm => h (by simp [hm])
    simp [List.find?, hp, ih hc]

theorem find?_overwrite_ne (l : List (String × List Value)) (c c' : String) (vs : List Value)
    (h : c' ≠ c) :
    (l.map (fun p => if p.1 = c then (c, vs) else p)).find? (fun p => decide (p.1 = c')) =
      l.find? (fun p => decide (p.1 = c')) := by
  induction l with
  | nil => rfl
  | cons p ps ih =>
    by_cases hp : p.1 = c
    · have hcc : ¬ (c = c') := fun hcc => h hcc.symm
      have hpc : ¬ (p.1 = c') := fun hpc => h (hp ▸ hpc : c = c').symm
      rw [List.map_cons, if_pos hp, List.find?_cons_of_neg _ (by simp [hcc]),
        List.find?_cons_of_neg _ (by simp [hpc]), ih]
    · by_cases hp' : p.1 = c'
      · rw [List.map_cons, if_neg hp, List.find?_cons_of_pos _ (by simp [hp']),
          List.find?_cons_of_pos _ (by simp [hp'])]
      · rw [List.map_cons, if_neg hp, List.find?_cons_of_neg _ (by simp [hp']),
          List.find?_cons_of_neg _ (by simp [hp']), ih]

theorem find?_append_ne (l : List (String × List Value)) (c c' : String) (vs : List Value)
    (h : c' ≠ c) :
    (l ++ [(c, vs)]).find? (fun p => decide (p.1 = c')) =
      l.find? (fun p => decide (p.1 = c')) := by
  induction l with
  | nil =>
    have hcc : ¬ (c = c') := fun hcc => h hcc.symm
    rw [List.nil_append, List.find?_cons_of_neg _ (by simp [hcc])]
  | cons p ps ih =>
    by_cases hp' : p.1 = c'
    · rw [List.cons_append, List.find?_cons_of_pos _ (by simp [hp']),
        List.find?_cons_of_pos _ (by simp [hp'])]
    · rw [List.cons_append, List.find?_cons_of_neg _ (by simp [hp']),
        List.find?_cons_of_neg _ (by simp [hp']), ih]

theorem map_fst_overwrite (l : List (String × List Value)) (c : String) (vs : List Value) :
    (l.map (fun p => if p.1 = c then (c, vs) else p)).map Prod.fst = l.map Prod.fst := by
  rw [List.map_map]
  apply List.map_congr_left
  intro p _
  by_cases hp : p.1 = c <;> simp [hp]

theorem DataFrame.index_setCol (df : DataFrame) (c : String) (vs : List Value) :
    (df.setCol c vs).index = df.index := by
  unfold DataFrame.setCol
  by_cases h : c ∈ df.columns <;> simp [h]

theorem DataFrame.getCol_setCol_self (df : DataFrame) (c : String) (vs : List Value) :
    (df.setCol c vs).getCol c = some vs := by
  unfold DataFrame.setCol DataFrame.getCol
  by_cases h : c ∈ df.columns
  · simp only [if_pos h]
    rw [find?_overwrite df.cols c vs h]
    rfl
  · simp only [if_neg h]
    rw [find?_append_fresh df.cols c vs h]
    rfl

theorem DataFrame.getCol_setCol_ne (df : DataFrame) (c c' : String) (vs : List Value)
    (h : c' ≠ c) : (df.setCol c vs).getCol c' = df.getCol c' := by
  unfold DataFrame.setCol DataFrame.getCol
  by_cases hm : c ∈ df.columns
  · simp only [if_pos hm]
    rw [find?_overwrite_ne df.cols c c' vs h]
  · simp only [if_neg hm]
    rw [find?_append_ne df.cols c c' vs h]

theorem DataFrame.columns_setCol_mem (df : DataFrame) (c : String) (vs : List Value)
    (h : c ∈ df.columns) : (df.setCol c vs).columns = df.columns := by
  unfold DataFrame.setCol
  rw [if_pos h]
  show (df.cols.map (fun p => if p.1 = c then (c, vs) else p)).map Prod.fst = df.columns
  exact map_fst_overwrite df.cols c vs

theorem DataFrame.cols_setCol_fresh (df : DataFrame) (c : String) (vs : List Value)
    (h : c ∉ df.columns) : (df.setCol c vs).cols = df.cols ++ [(c, vs)] := by
  unfold DataFrame.setCol
  simp [h]

theorem find?_col_some (l : List (String × List Value)) (c : String)
    (p : String × List Value) (h : l.find? (fun p => decide (p.1 = c)) = some p) :
    p.1 = c ∧ p ∈ l := by
  induction l with
  | nil => exact absurd h (by simp)
  | cons q qs ih =>
    by_cases hq : q.1 = c
    · rw [List.find?_cons_of_pos _ (by simp [hq])] at h
      cases h
      exact ⟨hq, List.mem_cons_self _ _⟩
    · rw [List.find?_cons_of_neg _ (by simp [hq])] at h
      rcases ih h with ⟨h1, h2⟩
      exact ⟨h1, List.mem_cons_of_mem q h2⟩

theorem find?_col_none (l : List (String × List Value)) (c : String) :
    l.find? (fun p => decide (p.1 = c)) = none ↔ c ∉ l.map Prod.fst := by
  induction l with
  | nil => simp
  | cons q qs ih =>
    by_cases hq : q.1 = c
    · rw [List.find?_cons_of_pos _ (by simp [hq])]
      simp [hq]
    · rw [List.find?_cons_of_neg _ (by simp [hq])]
      rw [ih]
      constructor
      · intro hcm
        simp only [List.map_cons, List.mem_cons]
        rintro (h1 | h2)
        · exact hq h1.symm
        · exact hcm h2
      · intro hcm hmem
        exact hcm (by simp [hmem])

theorem DataFrame.getCol_mem (df : DataFrame) (c : String) (vs : List Value)
    (h : df.getCol c = some vs) : c ∈ df.columns := by
  unfold DataFrame.getCol at h
  cases hf : df.cols.find? (fun p => decide (p.1 = c)) with
  | none => rw [hf] at h; exact absurd h (by simp)
  | some p =>
    rcases find?_col_some df.cols c p hf with ⟨h1, h2⟩
    exact h1 ▸ List.mem_map_of_mem Prod.fst h2

theorem DataFrame.getCol_eq_none (df : DataFrame) (c : String) :
    df.getCol c = none ↔ c ∉ df.columns := by
  unfold DataFrame.getCol DataFrame.columns
  cases hf : df.cols.find? (fun p => decide (p.1 = c)) with
  | none => simpa using (find?_col_none df.cols c).mp hf
  | some p =>
    rcases find?_col_some df.cols c p hf with ⟨h1, h2⟩
    constructor
    · intro h; exact absurd h (by simp)
    · intro h; exact absurd (h1 ▸ List.mem_map_of_mem Prod.fst h2) h

theorem DataFrame.mem_getCol (df : DataFrame) (c : String) (h : c ∈ df.columns) :
    ∃ vs, df.getCol c = some vs := by
  cases hg : df.getCol c with
  | none => exact absurd ((df.getCol_eq_none c).mp hg) (by simp [h])
  | some vs => exact ⟨vs, rfl⟩

theorem zipWith_getElem? {α β γ : Type} (f : α → β → γ) (a : List α) (b : List β) (i : ℕ) :
    (List.zipWith f a b).get? i = (a.get? i).bind (fun x => (b.get? i).map (f x)) := by
  induction a generalizing b i with
  | nil => simp
  | cons x xs ih =>
    cases b with
    | nil => simp
    | cons y ys =>
      cases i with
      | zero => simp
      | succ j => simpa using ih ys j

/-! ### Claim C2 — the power-factor entry of `calculate_statistics` -/

theorem lookup_append_of_none {β : Type} (l1 l2 : List (String × β)) (k : String)
    (h : l1.lookup k = none) : (l1 ++ l2).lookup k = l2.lookup k := by
  induction l1 with
  | nil => rfl
  | cons p ps ih =>
    obtain ⟨a, b⟩ := p
    rw [List.cons_append] at *
    rw [List.lookup] at h ⊢
    cases hk : (k == a) with
    | true => rw [hk] at h; exact Option.noConfusion h
    | false => rw [hk] at h; exact ih h

theorem lookup_pf_colStats (df : DataFrame) (c : String) (hc : c ∈ requiredColumns) :
    (colStats df c).lookup ("功率因数") = none := by
  have hc3 : c = "电流" ∨ c = "电压" ∨ c = "功率" := by simpa [requiredColumns] using hc
  rcases hc3 with rfl | rfl | rfl <;>
    · unfold colStats
      cases df.getCol _ with
      | none => rfl
      | some vs => rfl

/-- IEEE division by (finite) zero never produces a finite value. -/
theorem PVal.div_zero_not_fin (x : PVal) (q : ℚ) : PVal.div x (.fin 0) ≠ .fin q := by
  cases x with
  | fin a =>
    unfold PVal.div
    by_cases ha : a = 0
    · simp [ha]
    · by_cases ha' : 0 < a <;> simp [ha, ha']
  | pinf => simp [PVal.div]
  | ninf => simp [PVal.div]
  | nan => simp [PVal.div]

/-- Claim C2, counterexample: on the table `电流 = [0]`, `电压 = [5]`,
`功率 = [0]` — all three columns present, denominator
`mean(电流) * mean(电压) = 0` — `calculate_statistics` returns NaN
(the IEEE result of `0.0 / 0.0`) for `功率因数`, not `0` as the claim
states: the source's `else 0` fires only when `电流` or `电压` is absent. -/
def dfC2cex : DataFrame :=
  ⟨[0, 1], [("电流", [.num 0, .num 0]), ("电压", [.num 5, .num 5]),
            ("功率", [.num 0, .num 0])]⟩

theorem c2_power_factor_zero_denominator_cex :
    (calculate_statistics dfC2cex).lookup ("功率因数") = some (.q .nan) ∧
      StatVal.q PVal.nan ≠ StatVal.q (.fin 0) := by
  constructor
  · have h1 := lookup_pf_colStats dfC2cex ("电流") (by simp [requiredColumns])
    have h2 := lookup_pf_colStats dfC2cex ("电压") (by simp [requiredColumns])
    have h3 := lookup_pf_colStats dfC2cex ("功率") (by simp [requiredColumns])
    unfold calculate_statistics
    rw [List.append_assoc, List.append_assoc,
      lookup_append_of_none _ _ _ h1, lookup_append_of_none _ _ _ h2,
      lookup_append_of_none _ _ _ h3]
    have hex : extraStats dfC2cex =
        [("总能量", .q (PVal.mul (psum [.num 0, .num 0]) (.fin (1/1000)))),
         ("功率因数", .q .nan)] := by
      unfold extraStats
      simp only [show dfC2cex.getCol ("功率") = some [.num 0, .num 0] from rfl,
        show dfC2cex.getCol ("电流") = some [.num 0, .num 0] from rfl,
        show dfC2cex.getCol ("电压") = some [.num 5, .num 5] from rfl,
        Option.getD_some]
      rw [if_pos
        (show ("电流") ∈ dfC2cex.columns ∧ ("电压") ∈ dfC2cex.columns from by decide)]
      rw [show pmean [Value.num 0, Value.num 0] = .fin 0 from by
            simp [pmean, numsOf, ratMean],
          show pmean [Value.num 5, Value.num 5] = .fin 5 from by
            simp [pmean, numsOf, ratMean]]
      simp [PVal.mul, PVal.div]
    rw [hex]
    rfl
  · decide

/-- Claim C2 (amended): when `电流`, `电压`, `功率` are all present the
`功率因数` entry equals the IEEE division
`mean(功率) / (mean(电流) * mean(电压))`; when that denominator is `0` the
entry is NaN or ±inf — in particular it is **not** `0` (nor any finite
value).  The literal `0` fallback of the source applies only when `功率` is
present but `电流` or `电压` is absent. -/
theorem c2_power_factor_amended (df : DataFrame) (pv : List Value)
    (hP : df.getCol ("功率") = some pv)
    (hI : ("电流") ∈ df.columns) (hV : ("电压") ∈ df.columns) :
    (calculate_statistics df).lookup ("功率因数") =
      some (.q (PVal.div (pmean pv)
        (PVal.mul (pmean ((df.getCol ("电流")).getD []))
                  (pmean ((df.getCol ("电压")).getD []))))) ∧
    (PVal.mul (pmean ((df.getCol ("电流")).getD []))
        (pmean ((df.getCol ("电压")).getD [])) = .fin 0 →
      ∀ q : ℚ, (calculate_statistics df).lookup ("功率因数") ≠ some (.q (.fin q))) := by
  have h1 := lookup_pf_colStats df ("电流") (by simp [requiredColumns])
  have h2 := lookup_pf_colStats df ("电压") (by simp [requiredColumns])
  have h3 := lookup_pf_colStats df ("功率") (by simp [requiredColumns])
  have hex : extraStats df =
      [("总能量", .q (PVal.mul (psum pv) (.fin (1/1000)))),
       ("功率因数", .q (PVal.div (pmean pv)
          (PVal.mul (pmean ((df.getCol ("电流")).getD []))
                    (pmean ((df.getCol ("电压")).getD [])))))] := by
    unfold extraStats
    simp only [hP]
    rw [if_pos (show ("电流") ∈ df.columns ∧ ("电压") ∈ df.columns from ⟨hI, hV⟩)]
  have hlook : (calculate_statistics df).lookup ("功率因数") =
      some (.q (PVal.div (pmean pv)
        (PVal.mul (pmean ((df.getCol ("电流")).getD []))
                  (pmean ((df.getCol ("电压")).getD []))))) := by
    unfold calculate_statistics
    rw [List.append_assoc, List.append_assoc]
    rw [lookup_append_of_none _ _ _ h1, lookup_append_of_none _ _ _ h2,
      lookup_append_of_none _ _ _ h3, hex]
    rfl
  refine ⟨hlook, fun hden q hq => ?_⟩
  rw [hlook, hden] at hq
  injection hq with hq1
  injection hq1 with hq2
  exact PVal.div_zero_not_fin (pmean pv) q hq2

def dfC2w : DataFrame :=
  ⟨[0], [("电流", [.num 2]), ("电压", [.num 5]), ("功率", [.num 10])]⟩

theorem c2_power_factor_amended_witness :
    (calculate_statistics dfC2w).lookup ("功率因数") =
      some (.q (PVal.div (pmean [Value.num 10])
        (PVal.mul (pmean ((dfC2w.getCol ("电流")).getD []))
                  (pmean ((dfC2w.getCol ("电压")).getD []))))) ∧
    (PVal.mul (pmean ((dfC2w.getCol ("电流")).getD []))
        (pmean ((dfC2w.getCol ("电压")).getD [])) = .fin 0 →
      ∀ q : ℚ, (calculate_statistics dfC2w).lookup ("功率因数") ≠ some (.q (.fin q))) :=
  c2_power_factor_amended dfC2w [Value.num 10] rfl (by decide) (by decide)

/-! ### Claim C3 — `sequence_number` in `prepare_for_database` -/

theorem mkRecord_some (df : DataFrame) (eid : String) (now : Value) (i : ℕ) (idx : Int)
    (r : PRecord) (h : mkRecord df eid now i idx = some r) :
    ∃ cur vol pw addr temp hum,
      pyFloat (rowGetD df i ("电流") (.num 0)) = some cur ∧
      pyFloat (rowGetD df i ("电压") (.num 0)) = some vol ∧
      pyFloat (rowGetD df i ("功率") (.num 0)) = some pw ∧
      pyInt (rowGetD df i ("设备地址") (.num 1)) = some addr ∧
      optField df i ("温度") = some temp ∧
      optField df i ("湿度") = some hum ∧
      r = { experiment_id := eid, sequence_number := idx + 1, current := cur, voltage := vol,
            power := pw, device_address := addr,
            device_type := pyStr (rowGetD df i ("设备类型") (.str "未知")),
            timestamp := rowGetD df i ("时间戳") now, temperature := temp, humidity := hum } := by
  unfold mkRecord at h
  cases hc : pyFloat (rowGetD df i ("电流") (.num 0)) with
  | none => rw [hc] at h; exact Option.noConfusion h
  | some cur =>
  rw [hc] at h
  cases hv : pyFloat (rowGetD df i ("电压") (.num 0)) with
  | none => rw [hv] at h; exact Option.noConfusion h
  | some vol =>
  rw [hv] at h
  cases hp : pyFloat (rowGetD df i ("功率") (.num 0)) with
  | none => rw [hp] at h; exact Option.noConfusion h
  | some pw =>
  rw [hp] at h
  cases ha : pyInt (rowGetD df i ("设备地址") (.num 1)) with
  | none => rw [ha] at h; exact Option.noConfusion h
  | some addr =>
  rw [ha] at h
  cases ht : optField df i ("温度") with
  | none => rw [ht] at h; exact Option.noConfusion h
  | some temp =>
  rw [ht] at h
  cases hh : optField df i ("湿度") with
  | none => rw [hh] at h; exact Option.noConfusion h
  | some hum =>
  rw [hh] at h
  injection h with h'
  exact ⟨cur, vol, pw, addr, temp, hum, rfl, rfl, rfl, rfl, rfl, rfl, h'.symm⟩

theorem prepRecords_spec (df : DataFrame) (eid : String) (now : Value) :
    ∀ (idxs : List Int) (i0 : ℕ) (recs : List PRecord),
      prepRecords df eid now idxs i0 = some recs →
      recs.length = idxs.length ∧
      ∀ j : ℕ, (recs.get? j).map PRecord.sequence_number = (idxs.get? j).map (· + 1) := by
  intro idxs
  induction idxs with
  | nil =>
    intro i0 recs h
    unfold prepRecords at h
    injection h with h'
    subst h'
    exact ⟨rfl, fun j => by simp⟩
  | cons idx rest ih =>
    intro i0 recs h
    unfold prepRecords at h
    cases hr : mkRecord df eid now i0 idx with
    | none => rw [hr] at h; exact Option.noConfusion h
    | some r =>
    rw [hr] at h
    cases hrs : prepRecords df eid now rest (i0 + 1) with
    | none => rw [hrs] at h; exact Option.noConfusion h
    | some rs =>
    rw [hrs] at h
    injection h with h'
    subst h'
    obtain ⟨hlen, hseq⟩ := ih (i0 + 1) rs hrs
    constructor
    · simp [hlen]
    · intro j
      cases j with
      | zero =>
        obtain ⟨_, _, _, _, _, _, _, _, _, _, _, _, hr'⟩ :=
          mkRecord_some df eid now i0 idx r hr
        simp [hr']
      | succ k => simpa using hseq k

/-- Claim C3, counterexample: a 2-row table whose pandas index is `[1, 0]`
(e.g. a default-indexed table after a reordering) gets sequence numbers
`[2, 1]` — `iterrows` yields the *index label*, and the source uses
`idx + 1`, not the positional order `[1, 2]` demanded by the claim. -/
def dfC3cex : DataFrame := ⟨[1, 0], [("电流", [.num 5, .num 6])]⟩

/-- See `dfC3cex`. -/
theorem c3_sequence_position_cex :
    (prepare_for_database dfC3cex ("exp") (.time 0)).map
        (fun rs => rs.map PRecord.sequence_number) = some [2, 1] ∧
      (some [2, 1] : Option (List Int)) ≠ some [1, 2] := by
  constructor
  · rfl
  · decide

/-- Claim C3 (amended): `prepare_for_database` emits exactly one record per
row in order, but `sequence_number` is the row's pandas *index label* plus
one (`iterrows` yields the label), which coincides with the 1-based position
exactly when the index is the default `RangeIndex 0..n-1` produced by the
repository's loaders and generators — not after an index-permuting
reordering. -/
theorem c3_sequence_numbers_amended (df : DataFrame) (eid : String) (now : Value)
    (recs : List PRecord) (h : prepare_for_database df eid now = some recs) :
    recs.length = df.index.length ∧
    (∀ j : ℕ, (recs.get? j).map PRecord.sequence_number = (df.index.get? j).map (· + 1)) ∧
    (df.index = (List.range df.index.length).map Int.ofNat →
      ∀ j : ℕ, j < recs.length →
        (recs.get? j).map PRecord.sequence_number = some ((j : Int) + 1)) := by
  obtain ⟨hlen, hseq⟩ := prepRecords_spec df eid now df.index 0 recs h
  refine ⟨hlen, hseq, fun hdef j hj => ?_⟩
  have hj' : j < df.index.length := hlen ▸ hj
  have hget : df.index.get? j = some (Int.ofNat j) := by
    conv_lhs => rw [hdef]
    rw [List.get?_map, List.get?_range hj']
    rfl
  rw [hseq j, hget]
  rfl

def dfC3w : DataFrame := ⟨[0, 1, 2], [("电流", [.num 1, .num 2, .num 3])]⟩

theorem c3_sequence_numbers_amended_witness :
    ((prepare_for_database dfC3w ("exp") (.time 0)).getD []).length = dfC3w.index.length ∧
    (∀ j : ℕ,
      (((prepare_for_database dfC3w ("exp") (.time 0)).getD []).get? j).map
          PRecord.sequence_number = (dfC3w.index.get? j).map (· + 1)) ∧
    (dfC3w.index = (List.range dfC3w.index.length).map Int.ofNat →
      ∀ j : ℕ, j < ((prepare_for_database dfC3w ("exp") (.time 0)).getD []).length →
        (((prepare_for_database dfC3w ("exp") (.time 0)).getD []).get? j).map
            PRecord.sequence_number = some ((j : Int) + 1)) :=
  c3_sequence_numbers_amended dfC3w ("exp") (.time 0) _ rfl

/-! ### Claim C4 — in-place mutation versus append-only -/

/-- Claim C4, counterexample: `validate_experiment_data` mutates its
argument.  On a table with the single column `current = ["abc"]`, after the
call the argument has its column renamed to `电流` in place and its value
overwritten by the NaN produced by the failed numeric coercion — raw column
values are not preserved. -/
def dfC4cex : DataFrame := ⟨[0], [("current", [.str "abc"])]⟩

/-- See `dfC4cex`. -/
theorem c4_validate_mutates_cex :
    (validate_experiment_data dfC4cex).2.2 = ⟨[0], [("电流", [.nan])]⟩ ∧
    (validate_experiment_data dfC4cex).2.2 ≠ dfC4cex := by
  have h : (validate_experiment_data dfC4cex).2.2 = ⟨[0], [("电流", [.nan])]⟩ := rfl
  refine ⟨h, ?_⟩
  rw [h]
  decide

/-- Claim C4 (amended): the append-only discipline holds for
`detect_anomalies` and `filter_data` — both work on `df.copy()` and, when the
derived column name is fresh, return the input's columns unchanged with the
one derived column appended (`detect_anomalies` adds nothing for an unknown
method) — but **not** for `validate_experiment_data`, which renames alias
columns and overwrites the required columns in place
(see `c4_validate_mutates_cex`). -/
theorem c4_append_only_amended :
    (∀ (df : DataFrame) (col m : String) (w : ℕ) (df' : DataFrame),
        (col ++ "_filtered") ∉ df.columns → filter_data df col m w = some df' →
        df'.index = df.index ∧
          ∃ out, df'.cols = df.cols ++ [(col ++ "_filtered", out)]) ∧
    (∀ (df : DataFrame) (col m : String) (df' : DataFrame),
        ("异常") ∉ df.columns → detect_anomalies df col m = some df' →
        df'.index = df.index ∧
          (df'.cols = df.cols ∨ ∃ fl, df'.cols = df.cols ++ [("异常", fl)])) := by
  constructor
  · intro df col m w df' hfree hsome
    unfold filter_data at hsome
    by_cases hm : m = "moving_average" ∨ m = "exponential" ∨ m = "median"
    · rw [if_pos hm] at hsome
      cases hg : df.getCol col with
      | none => rw [hg] at hsome; exact Option.noConfusion hsome
      | some vs =>
        rw [hg] at hsome
        dsimp only [] at hsome
        by_cases ho : vs.any Value.isObj = true
        · rw [if_pos ho] at hsome; exact Option.noConfusion hsome
        · rw [if_neg ho] at hsome
          by_cases hw : w = 0
          · rw [if_pos hw] at hsome; exact Option.noConfusion hsome
          · rw [if_neg hw] at hsome
            injection hsome with h'
            subst h'
            exact ⟨DataFrame.index_setCol _ _ _,
              _, DataFrame.cols_setCol_fresh _ _ _ hfree⟩
    · rw [if_neg hm] at hsome
      rw [(df.getCol_eq_none (col ++ "_filtered")).mpr hfree] at hsome
      exact Option.noConfusion hsome
  · intro df col m df' hfree hsome
    unfold detect_anomalies at hsome
    by_cases hiqr : m = "iqr"
    · rw [if_pos hiqr] at hsome
      cases hg : df.getCol col with
      | none => rw [hg] at hsome; exact Option.noConfusion hsome
      | some vs =>
        rw [hg] at hsome
        simp only [Option.some_bind] at hsome
        by_cases ho : vs.any Value.isObj = true
        · rw [if_pos ho] at hsome; exact Option.noConfusion hsome
        · rw [if_neg ho] at hsome
          injection hsome with h'
          subst h'
          exact ⟨DataFrame.index_setCol _ _ _,
            Or.inr ⟨_, DataFrame.cols_setCol_fresh _ _ _ hfree⟩⟩
    · rw [if_neg hiqr] at hsome
      by_cases hz : m = "zscore"
      · rw [if_pos hz] at hsome
        cases hg : df.getCol col with
        | none => rw [hg] at hsome; exact Option.noConfusion hsome
        | some vs =>
          rw [hg] at hsome
          simp only [Option.some_bind] at hsome
          by_cases ho : vs.any Value.isObj = true
          · rw [if_pos ho] at hsome; exact Option.noConfusion hsome
          · rw [if_neg ho] at hsome
            injection hsome with h'
            subst h'
            exact ⟨DataFrame.index_setCol _ _ _,
              Or.inr ⟨_, DataFrame.cols_setCol_fresh _ _ _ hfree⟩⟩
      · rw [if_neg hz] at hsome
        injection hsome with h'
        subst h'
        exact ⟨rfl, Or.inl rfl⟩

def dfC4w : DataFrame := ⟨[0], [("a", [.num 1])]⟩

theorem c4_append_only_amended_witness :
    (((filter_data dfC4w ("a") ("moving_average") 1).getD ⟨[], []⟩).index = dfC4w.index ∧
      ∃ out, ((filter_data dfC4w ("a") ("moving_average") 1).getD ⟨[], []⟩).cols
        = dfC4w.cols ++ [("a" ++ "_filtered", out)]) ∧
    (((detect_anomalies dfC4w ("a") ("iqr")).getD ⟨[], []⟩).index = dfC4w.index ∧
      (((detect_anomalies dfC4w ("a") ("iqr")).getD ⟨[], []⟩).cols = dfC4w.cols ∨
        ∃ fl, ((detect_anomalies dfC4w ("a") ("iqr")).getD ⟨[], []⟩).cols
          = dfC4w.cols ++ [("异常", fl)])) :=
  ⟨c4_append_only_amended.1 dfC4w ("a") ("moving_average") 1 _ (by decide) rfl,
   c4_append_only_amended.2 dfC4w ("a") ("iqr") _ (by decide) rfl⟩

/-! ### Claim C10 — defaults in `prepare_for_database` -/

theorem prepRecords_defaults (df : DataFrame) (eid : String) (now : Value) :
    ∀ (idxs : List Int) (i0 : ℕ) (recs : List PRecord),
      prepRecords df eid now idxs i0 = some recs →
      ∀ r ∈ recs,
        ((("电流") ∉ df.columns → r.current = .num 0) ∧
         (("电压") ∉ df.columns → r.voltage = .num 0) ∧
         (("功率") ∉ df.columns → r.power = .num 0) ∧
         (("时间戳") ∉ df.columns → r.timestamp = now)) := by
  intro idxs
  induction idxs with
  | nil =>
    intro i0 recs h
    unfold prepRecords at h
    injection h with h'
    subst h'
    intro r hr
    exact absurd hr (by simp)
  | cons idx rest ih =>
    intro i0 recs h
    unfold prepRecords at h
    cases hrec : mkRecord df eid now i0 idx with
    | none => rw [hrec] at h; exact Option.noConfusion h
    | some r0 =>
    rw [hrec] at h
    cases hrs : prepRecords df eid now rest (i0 + 1) with
    | none => rw [hrs] at h; exact Option.noConfusion h
    | some rs =>
    rw [hrs] at h
    injection h with h'
    subst h'
    intro r hr
    rcases List.mem_cons.mp hr with rfl | hmem
    · obtain ⟨cur, vol, pw, addr, temp, hum, hcur, hvol, hpw, _, _, _, hr'⟩ :=
        mkRecord_some df eid now i0 idx r hrec
      subst hr'
      refine ⟨fun hc => ?_, fun hc => ?_, fun hc => ?_, fun hc => ?_⟩
      · have : rowGetD df i0 ("电流") (.num 0) = .num 0 := by
          unfold rowGetD
          rw [(df.getCol_eq_none ("电流")).mpr hc]
        rw [this] at hcur
        injection hcur with hcur'
        exact hcur'.symm
      · have : rowGetD df i0 ("电压") (.num 0) = .num 0 := by
          unfold rowGetD
          rw [(df.getCol_eq_none ("电压")).mpr hc]
        rw [this] at hvol
        injection hvol with hvol'
        exact hvol'.symm
      · have : rowGetD df i0 ("功率") (.num 0) = .num 0 := by
          unfold rowGetD
          rw [(df.getCol_eq_none ("功率")).mpr hc]
        rw [this] at hpw
        injection hpw with hpw'
        exact hpw'.symm
      · show rowGetD df i0 ("时间戳") now = now
        unfold rowGetD
        rw [(df.getCol_eq_none ("时间戳")).mpr hc]
    · exact ih (i0 + 1) rs hrs r hmem

/-- Claim C10: when `prepare_for_database` returns, it emits one record per
row; a required measurement column (`电流`/`电压`/`功率`) that is missing
contributes the value `float(0) = 0.0` to every record rather than being
omitted or failing; and every record carries a `timestamp` field (it is a
structure field of `PRecord`), equal to the `datetime.now()` clock value
`now` whenever the table has no `时间戳` column. -/
theorem c10_record_defaults (df : DataFrame) (eid : String) (now : Value)
    (recs : List PRecord) (h : prepare_for_database df eid now = some recs) :
    recs.length = df.index.length ∧
    ∀ r ∈ recs,
      ((("电流") ∉ df.columns → r.current = .num 0) ∧
       (("电压") ∉ df.columns → r.voltage = .num 0) ∧
       (("功率") ∉ df.columns → r.power = .num 0) ∧
       (("时间戳") ∉ df.columns → r.timestamp = now)) :=
  ⟨(prepRecords_spec df eid now df.index 0 recs h).1,
   prepRecords_defaults df eid now df.index 0 recs h⟩

def dfC10w : DataFrame := ⟨[0, 5], [("设备地址", [.num 3, .num 4])]⟩

theorem c10_record_defaults_witness :
    ((prepare_for_database dfC10w ("e") (.time 7)).getD []).length = dfC10w.index.length ∧
    ∀ r ∈ (prepare_for_database dfC10w ("e") (.time 7)).getD [],
      ((("电流") ∉ dfC10w.columns → r.current = .num 0) ∧
       (("电压") ∉ dfC10w.columns → r.voltage = .num 0) ∧
       (("功率") ∉ dfC10w.columns → r.power = .num 0) ∧
       (("时间戳") ∉ dfC10w.columns → r.timestamp = .time 7)) :=
  c10_record_defaults dfC10w ("e") (.time 7) _ rfl

/-! ### Claim C5 — Z-score anomaly detection with zero standard deviation -/

theorem sum_eq_zero_of_nonneg (l : List ℚ) (hn : ∀ x ∈ l, 0 ≤ x) (h : l.sum = 0) :
    ∀ x ∈ l, x = 0 := by
  induction l with
  | nil => intro x hx; exact absurd hx (by simp)
  | cons a l ih =>
    rw [List.sum_cons] at h
    have ha : 0 ≤ a := hn a (List.mem_cons_self _ _)
    have hl : 0 ≤ l.sum := List.sum_nonneg (fun x hx => hn x (List.mem_cons_of_mem a hx))
    have ha0 : a = 0 := by linarith
    have hl0 : l.sum = 0 := by linarith
    intro x hx
    rcases List.mem_cons.mp hx with rfl | hmem
    · exact ha0
    · exact ih (fun y hy => hn y (List.mem_cons_of_mem a hy)) hl0 x hmem

/-- Sample variance `0` forces every entry to equal the mean. -/
theorem eq_mean_of_var_zero (ys : List ℚ) (hn : 2 ≤ ys.length)
    (hvar : ratSampleVar ys = 0) : ∀ y ∈ ys, y = ratMean ys := by
  unfold ratSampleVar at hvar
  have hden : ((ys.length : ℚ) - 1) ≠ 0 := by
    have : (2 : ℚ) ≤ (ys.length : ℚ) := by exact_mod_cast hn
    intro hc
    rw [sub_eq_zero] at hc
    rw [hc] at this
    norm_num at this
  have hsum : (ys.map (fun y => (y - ratMean ys) ^ 2)).sum = 0 := by
    rcases div_eq_zero_iff.mp hvar with h | h
    · exact h
    · exact absurd h hden
  intro y hy
  have hsq : (y - ratMean ys) ^ 2 = 0 := by
    refine sum_eq_zero_of_nonneg _ (fun x hx => ?_) hsum _ (List.mem_map_of_mem _ hy)
    rcases List.mem_map.mp hx with ⟨z, _, rfl⟩
    positivity
  have := pow_eq_zero_iff (n := 2) (by norm_num) |>.mp hsq
  linarith [sub_eq_zero.mp this]

/-- Claim C5: `detect_anomalies` with `method = "zscore"` on a column whose
sample standard deviation is `0` (at least two numeric entries, zero
variance) returns the table with the `异常` column appended and **no row
flagged**: the division by the zero standard deviation produces only
`0/0 = NaN` z-scores (every value equals the mean), and `NaN > 3` is
`False` — no exception, no spurious flag. -/
theorem c5_zscore_zero_std (df : DataFrame) (col : String) (vs : List Value)
    (hcol : df.getCol col = some vs) (hobj : vs.any Value.isObj = false)
    (hn : 2 ≤ (numsOf vs).length) (hvar : ratSampleVar (numsOf vs) = 0) :
    detect_anomalies df col ("zscore")
      = some (df.setCol ("异常") ((zscoreFlags vs).map Value.bool)) ∧
    ∀ b ∈ zscoreFlags vs, b = false := by
  constructor
  · unfold detect_anomalies
    rw [if_neg (by decide : ¬ ("zscore" : String) = "iqr"),
      if_pos (rfl : ("zscore" : String) = "zscore"), hcol]
    simp only [Option.some_bind]
    rw [if_neg (by simp [hobj])]
  · unfold zscoreFlags
    rw [if_neg (by omega : ¬ (numsOf vs).length ≤ 1)]
    intro b hb
    rcases List.mem_map.mp hb with ⟨v, hv, rfl⟩
    cases v with
    | num x =>
      have hx : x ∈ numsOf vs := by
        unfold numsOf
        exact List.mem_filterMap.mpr ⟨.num x, hv, rfl⟩
      have hxm : x = ratMean (numsOf vs) := eq_mean_of_var_zero _ hn hvar x hx
      simp [hvar, hxm]
    | nan => rfl
    | str s => rfl
    | time t => rfl
    | bool b => rfl

def dfC5w : DataFrame := ⟨[0, 1, 2], [("x", [.num 4, .num 4, .num 4])]⟩

theorem c5_zscore_zero_std_witness :
    detect_anomalies dfC5w ("x") ("zscore")
      = some (dfC5w.setCol ("异常")
          ((zscoreFlags [.num 4, .num 4, .num 4]).map Value.bool)) ∧
    ∀ b ∈ zscoreFlags [Value.num 4, Value.num 4, Value.num 4], b = false :=
  c5_zscore_zero_std dfC5w ("x") _ rfl rfl (by decide)
    (by
      rw [show numsOf [Value.num 4, Value.num 4, Value.num 4] = [4, 4, 4] from rfl]
      norm_num [ratSampleVar, ratMean])

/-! ### Claims C6, C7, C8 — `filter_data` -/

theorem Value.isObj_eq_false_of_isNum (v : Value) (h : v.isNum = true) :
    v.isObj = false := by
  cases v <;> simp_all [Value.isNum, Value.isObj]

theorem any_isObj_false (vs : List Value) (h : ∀ v ∈ vs, v.isNum = true) :
    vs.any Value.isObj = false := by
  rw [List.any_eq_false]
  intro v hv
  simp [Value.isObj_eq_false_of_isNum v (h v hv)]

theorem vs_eq_map_numsOf (vs : List Value) (h : ∀ v ∈ vs, v.isNum = true) :
    vs = (numsOf vs).map Value.num := by
  induction vs with
  | nil => rfl
  | cons v r ih =>
    cases v with
    | num q =>
      have hr := ih (fun x hx => h x (List.mem_cons_of_mem _ hx))
      simp only [numsOf, List.filterMap_cons] at *
      rw [List.map_cons]
      exact List.cons_eq_cons.mpr ⟨rfl, hr⟩
    | nan => exact absurd (h _ (List.mem_cons_self _ _)) (by simp [Value.isNum])
    | str s => exact absurd (h _ (List.mem_cons_self _ _)) (by simp [Value.isNum])
    | time t => exact absurd (h _ (List.mem_cons_self _ _)) (by simp [Value.isNum])
    | bool b => exact absurd (h _ (List.mem_cons_self _ _)) (by simp [Value.isNum])

theorem allNums_of_isNum (l : List Value) (h : ∀ v ∈ l, v.isNum = true) :
    allNums l = some (numsOf l) := by
  induction l with
  | nil => rfl
  | cons v r ih =>
    cases v with
    | num q =>
      have hr := ih (fun x hx => h x (List.mem_cons_of_mem _ hx))
      simp [allNums, numsOf, List.filterMap_cons, hr]
    | nan => exact absurd (h _ (List.mem_cons_self _ _)) (by simp [Value.isNum])
    | str s => exact absurd (h _ (List.mem_cons_self _ _)) (by simp [Value.isNum])
    | time t => exact absurd (h _ (List.mem_cons_self _ _)) (by simp [Value.isNum])
    | bool b => exact absurd (h _ (List.mem_cons_self _ _)) (by simp [Value.isNum])

theorem fillnaWith_get? (orig filt : List Value) (i : ℕ) :
    (fillnaWith orig filt).get? i =
      (filt.get? i).bind (fun f => (orig.get? i).map (fun o => if f.isNan then o else f)) := by
  unfold fillnaWith
  exact zipWith_getElem? _ _ _ i

theorem fillnaWith_length (orig filt : List Value) :
    (fillnaWith orig filt).length = min filt.length orig.length := by
  simp [fillnaWith]

theorem rollingApply_length (f : List ℚ → ℚ) (w : ℕ) (xs : List Value) :
    (rollingApply f w xs).length = xs.length := by
  simp [rollingApply]

theorem rollingApply_get? (f : List ℚ → ℚ) (w : ℕ) (xs : List Value) (i : ℕ)
    (hi : i < xs.length) :
    (rollingApply f w xs).get? i = some (
      if w ≤ i + (w - 1) / 2 + 1 ∧ i + (w - 1) / 2 < xs.length then
        match allNums ((xs.drop (i + (w - 1) / 2 + 1 - w)).take w) with
        | some qs => Value.num (f qs)
        | none => Value.nan
      else Value.nan) := by
  unfold rollingApply
  rw [List.get?_map, List.get?_range hi]
  rfl

/-- Claim C6: `filter_data` with `method = "moving_average"` computes the
centered rolling mean: wherever the window `i + (w-1)/2 + 1 - w … i + (w-1)/2`
fully fits, the filtered value is the exact mean of that window; every edge
position where it does not fit holds the original unfiltered value (the
`fillna(df[column])` step). -/
theorem c6_moving_average (df : DataFrame) (col : String) (w : ℕ) (vs : List Value)
    (hw : 0 < w) (hcol : df.getCol col = some vs)
    (hnum : ∀ v ∈ vs, v.isNum = true) :
    ∃ df', filter_data df col ("moving_average") w = some df' ∧
    ∃ out, df'.getCol (col ++ "_filtered") = some out ∧ out.length = vs.length ∧
      ∀ i, i < vs.length →
        ((w ≤ i + (w - 1) / 2 + 1 ∧ i + (w - 1) / 2 < vs.length →
            out.get? i = some (.num (ratMean
              (numsOf ((vs.drop (i + (w - 1) / 2 + 1 - w)).take w))))) ∧
         (¬ (w ≤ i + (w - 1) / 2 + 1 ∧ i + (w - 1) / 2 < vs.length) →
            out.get? i = vs.get? i)) := by
  have hobj : vs.any Value.isObj = false := any_isObj_false vs hnum
  refine ⟨df.setCol (col ++ "_filtered") (fillnaWith vs (rollingApply ratMean w vs)), ?_, ?_⟩
  · unfold filter_data
    rw [if_pos (Or.inl rfl), hcol]
    dsimp only []
    rw [if_neg (by simp [hobj]), if_neg (by omega)]
    rfl
  · refine ⟨fillnaWith vs (rollingApply ratMean w vs),
      DataFrame.getCol_setCol_self _ _ _, ?_, ?_⟩
    · rw [fillnaWith_length, rollingApply_length]
      omega
    · intro i hi
      have ho : vs.get? i = some (vs.get ⟨i, hi⟩) := List.get?_eq_get hi
      constructor
      · intro hfits
        have hseg : allNums ((vs.drop (i + (w - 1) / 2 + 1 - w)).take w)
            = some (numsOf ((vs.drop (i + (w - 1) / 2 + 1 - w)).take w)) :=
          allNums_of_isNum _
            (fun v hv => hnum v (List.mem_of_mem_drop (List.mem_of_mem_take hv)))
        rw [fillnaWith_get?, rollingApply_get? ratMean w vs i hi, if_pos hfits, hseg]
        simp [ho, Value.isNan]
        exact ⟨vs.get ⟨i, hi⟩, by rw [← List.get?_eq_getElem?]; exact ho⟩
      · intro hnf
        rw [fillnaWith_get?, rollingApply_get? ratMean w vs i hi, if_neg hnf]
        simp [ho, Value.isNan]

def dfC6w : DataFrame :=
  ⟨[0, 1, 2, 3, 4], [("x", [.num 1, .num 2, .num 3, .num 4, .num 5])]⟩

theorem c6_moving_average_witness :
    (∃ df', filter_data dfC6w ("x") ("moving_average") 3 = some df' ∧
      ∃ out, df'.getCol ("x" ++ "_filtered") = some out ∧
        out.length = [Value.num 1, Value.num 2, Value.num 3, Value.num 4, Value.num 5].length ∧
        ∀ i, i < [Value.num 1, Value.num 2, Value.num 3, Value.num 4, Value.num 5].length →
          ((3 ≤ i + (3 - 1) / 2 + 1 ∧ i + (3 - 1) / 2 <
              [Value.num 1, Value.num 2, Value.num 3, Value.num 4, Value.num 5].length →
              out.get? i = some (.num (ratMean (numsOf
                (([Value.num 1, Value.num 2, Value.num 3, Value.num 4,
                   Value.num 5].drop (i + (3 - 1) / 2 + 1 - 3)).take 3))))) ∧
           (¬ (3 ≤ i + (3 - 1) / 2 + 1 ∧ i + (3 - 1) / 2 <
              [Value.num 1, Value.num 2, Value.num 3, Value.num 4, Value.num 5].length) →
              out.get? i =
                [Value.num 1, Value.num 2, Value.num 3, Value.num 4,
                 Value.num 5].get? i))) ∧
    ((filter_data dfC6w ("x") ("moving_average") 3).getD ⟨[], []⟩).getCol ("x_filtered")
      = some [.num 1, .num 2, .num 3, .num 4, .num 5] := by
  refine ⟨c6_moving_average dfC6w ("x") 3 _ (by norm_num) rfl (by decide), ?_⟩
  rw [show filter_data dfC6w ("x") ("moving_average") 3
      = some (dfC6w.setCol ("x_filtered")
          (fillnaWith [Value.num 1, Value.num 2, Value.num 3, Value.num 4, Value.num 5]
            (rollingApply ratMean 3
              [Value.num 1, Value.num 2, Value.num 3, Value.num 4, Value.num 5])))
    from rfl]
  rw [Option.getD_some, DataFrame.getCol_setCol_self]
  rw [show rollingApply ratMean 3
        [Value.num 1, Value.num 2, Value.num 3, Value.num 4, Value.num 5]
      = [Value.nan, .num (ratMean [1, 2, 3]), .num (ratMean [2, 3, 4]),
         .num (ratMean [3, 4, 5]), Value.nan] from rfl]
  rw [show fillnaWith [Value.num 1, Value.num 2, Value.num 3, Value.num 4, Value.num 5]
        [Value.nan, .num (ratMean [1, 2, 3]), .num (ratMean [2, 3, 4]),
         .num (ratMean [3, 4, 5]), Value.nan]
      = [Value.num 1, .num (ratMean [1, 2, 3]), .num (ratMean [2, 3, 4]),
         .num (ratMean [3, 4, 5]), Value.num 5] from rfl]
  norm_num [ratMean]

/-- Modelled from the claim's words (spec §4.3): the recursive exponential
moving average `filtered[0] = x[0]`,
`filtered[i] = α·x[i] + (1−α)·filtered[i−1]`; `specEmaAux a y l` continues
the recursion after a previous output `y`. -/
def specEmaAux (a y : ℚ) : List ℚ → List ℚ
  | [] => []
  | x :: r => (a * x + (1 - a) * y) :: specEmaAux a (a * x + (1 - a) * y) r

/-- See `specEmaAux`. -/
def specEma (a : ℚ) : List ℚ → List ℚ
  | [] => []
  | x :: r => x :: specEmaAux a x r

theorem specEmaAux_length (a : ℚ) (l : List ℚ) : ∀ y : ℚ,
    (specEmaAux a y l).length = l.length := by
  induction l with
  | nil => intro y; rfl
  | cons x r ih => intro y; simp [specEmaAux, ih]

theorem specEma_length (a : ℚ) (l : List ℚ) : (specEma a l).length = l.length := by
  cases l with
  | nil => rfl
  | cons x r => simp [specEma, specEmaAux_length]

theorem emaStep_some_num (a y x : ℚ) :
    emaStep a (some (1, y)) (.num x)
      = (some (1, a * x + (1 - a) * y), .num (a * x + (1 - a) * y)) := by
  unfold emaStep
  have he : ((1 : ℚ) * (1 - a) * y + a * x) / ((1 : ℚ) * (1 - a) + a)
      = a * x + (1 - a) * y := by
    rw [show (1 : ℚ) * (1 - a) + a = 1 from by ring, div_one]
    ring
  dsimp only []
  rw [he]

theorem emaFrom_spec (a : ℚ) (l : List ℚ) : ∀ y : ℚ,
    emaFrom a (some (1, y)) (l.map Value.num) = (specEmaAux a y l).map Value.num := by
  induction l with
  | nil => intro y; rfl
  | cons x r ih =>
    intro y
    rw [List.map_cons]
    show (emaStep a (some (1, y)) (.num x)).2 ::
        emaFrom a (emaStep a (some (1, y)) (.num x)).1 (r.map Value.num) = _
    rw [emaStep_some_num]
    simp only [specEmaAux, List.map_cons]
    exact List.cons_eq_cons.mpr ⟨rfl, ih _⟩

/-- The code's `ewm(span=w, adjust=False)` loop on an all-numeric column is
exactly the spec's recursion. -/
theorem emaVals_spec (a : ℚ) (l : List ℚ) :
    emaVals a (l.map Value.num) = (specEma a l).map Value.num := by
  cases l with
  | nil => rfl
  | cons x r =>
    show (emaStep a none (.num x)).2 ::
        emaFrom a (emaStep a none (.num x)).1 (r.map Value.num) = _
    rw [show emaStep a none (.num x) = (some (1, x), .num x) from rfl]
    simp only [specEma, List.map_cons]
    exact List.cons_eq_cons.mpr ⟨rfl, emaFrom_spec a r x⟩

theorem fillnaWith_map_num (os : List Value) (l : List ℚ) (h : os.length = l.length) :
    fillnaWith os (l.map Value.num) = l.map Value.num := by
  induction l generalizing os with
  | nil => rfl
  | cons q r ih =>
    cases os with
    | nil => simp at h
    | cons o os' =>
      show (if (Value.num q).isNan = true then o else Value.num q)
          :: fillnaWith os' (r.map Value.num) = _
      rw [if_neg (by simp [Value.isNan]), List.map_cons]
      exact List.cons_eq_cons.mpr ⟨rfl, ih os' (by simpa using h)⟩

/-- Claim C7: `filter_data` with `method = "exponential"` computes the
recursive exponential moving average with `α = 2/(window+1)` starting from
the first raw value — exactly `specEma` (the claim's recursion). -/
theorem c7_exponential (df : DataFrame) (col : String) (w : ℕ) (qs : List ℚ)
    (hw : 0 < w) (hcol : df.getCol col = some (qs.map Value.num)) :
    ∃ df', filter_data df col ("exponential") w = some df' ∧
      df'.getCol (col ++ "_filtered")
        = some ((specEma (2 / ((w : ℚ) + 1)) qs).map Value.num) := by
  have hobj : (qs.map Value.num).any Value.isObj = false :=
    any_isObj_false _ (by
      intro v hv
      rcases List.mem_map.mp hv with ⟨q, _, rfl⟩
      rfl)
  refine ⟨df.setCol (col ++ "_filtered")
      (fillnaWith (qs.map Value.num) (emaVals (2 / ((w : ℚ) + 1)) (qs.map Value.num))),
    ?_, ?_⟩
  · unfold filter_data
    rw [if_pos (Or.inr (Or.inl rfl)), hcol]
    dsimp only []
    rw [if_neg (by simp [hobj]), if_neg (by omega)]
    rfl
  · rw [DataFrame.getCol_setCol_self, emaVals_spec]
    exact congrArg some (fillnaWith_map_num _ _ (by simp [specEma_length]))

def dfC7w : DataFrame := ⟨[0, 1, 2], [("x", [.num 1, .num 2, .num 3])]⟩

theorem c7_exponential_witness :
    (∃ df', filter_data dfC7w ("x") ("exponential") 3 = some df' ∧
      df'.getCol ("x" ++ "_filtered")
        = some ((specEma (2 / ((3 : ℚ) + 1)) [1, 2, 3]).map Value.num)) ∧
    specEma (2 / ((3 : ℚ) + 1)) [1, 2, 3] = [1, 3/2, 9/4] :=
  ⟨c7_exponential dfC7w ("x") 3 [1, 2, 3] (by norm_num) rfl,
   by norm_num [specEma, specEmaAux]⟩

/-- When the window exceeds the row count, no rolling window ever fits, the
rolling output is NaN everywhere, and the `fillna` step restores every raw
value. -/
theorem fillna_rolling_big (f : List ℚ → ℚ) (w : ℕ) (xs : List Value)
    (hw : xs.length < w) :
    fillnaWith xs (rollingApply f w xs) = xs := by
  apply List.ext_get?
  intro i
  by_cases hi : i < xs.length
  · rw [fillnaWith_get?, rollingApply_get? f w xs i hi, if_neg (by omega)]
    simp [Value.isNan, List.get?_eq_get hi]
  · have h1 : xs.get? i = none := List.get?_eq_none.mpr (by omega)
    have h2 : (fillnaWith xs (rollingApply f w xs)).get? i = none := by
      apply List.get?_eq_none.mpr
      rw [fillnaWith_length, rollingApply_length]
      omega
    rw [h1, h2]

/-- Claim C8: for every window strictly greater than the row count,
`filter_data` (any of its three methods, on a numeric column) does not fail:
it returns a table whose filtered column has one numeric entry per row, and
for the rolling methods every position falls back to the original value. -/
theorem c8_large_window (df : DataFrame) (col m : String) (w : ℕ) (vs : List Value)
    (hm : m = "moving_average" ∨ m = "exponential" ∨ m = "median")
    (hcol : df.getCol col = some vs) (hnum : ∀ v ∈ vs, v.isNum = true)
    (hw : vs.length < w) :
    ∃ df', filter_data df col m w = some df' ∧
    ∃ out, df'.getCol (col ++ "_filtered") = some out ∧ out.length = vs.length ∧
      (∀ v ∈ out, v.isNum = true) ∧
      ((m = "moving_average" ∨ m = "median") → out = vs) := by
  have hw0 : ¬ w = 0 := by omega
  have hobj : vs.any Value.isObj = false := any_isObj_false vs hnum
  rcases hm with rfl | rfl | rfl
  · refine ⟨df.setCol (col ++ "_filtered")
        (fillnaWith vs (rollingApply ratMean w vs)), ?_, vs, ?_, rfl, hnum, fun _ => rfl⟩
    · unfold filter_data
      rw [if_pos (Or.inl rfl), hcol]
      dsimp only []
      rw [if_neg (by simp [hobj]), if_neg hw0]
      rfl
    · rw [DataFrame.getCol_setCol_self]
      exact congrArg some (fillna_rolling_big ratMean w vs hw)
  · obtain ⟨qs, hqs⟩ : ∃ qs, vs = qs.map Value.num :=
      ⟨numsOf vs, vs_eq_map_numsOf vs hnum⟩
    subst hqs
    have hout : fillnaWith (qs.map Value.num)
        (emaVals (2 / ((w : ℚ) + 1)) (qs.map Value.num))
        = (specEma (2 / ((w : ℚ) + 1)) qs).map Value.num := by
      rw [emaVals_spec]
      exact fillnaWith_map_num _ _ (by simp [specEma_length])
    refine ⟨df.setCol (col ++ "_filtered")
        (fillnaWith (qs.map Value.num) (emaVals (2 / ((w : ℚ) + 1)) (qs.map Value.num))),
      ?_, (specEma (2 / ((w : ℚ) + 1)) qs).map Value.num, ?_, ?_, ?_, ?_⟩
    · unfold filter_data
      rw [if_pos (Or.inr (Or.inl rfl)), hcol]
      dsimp only []
      rw [if_neg (by simp [hobj]), if_neg hw0]
      rfl
    · rw [DataFrame.getCol_setCol_self]
      exact congrArg some hout
    · simp [specEma_length]
    · intro v hv
      rcases List.mem_map.mp hv with ⟨q, _, rfl⟩
      rfl
    · rintro (h | h) <;> exact absurd h (by decide)
  · refine ⟨df.setCol (col ++ "_filtered")
        (fillnaWith vs (rollingApply ratMedianList w vs)), ?_, vs, ?_, rfl, hnum, fun _ => rfl⟩
    · unfold filter_data
      rw [if_pos (Or.inr (Or.inr rfl)), hcol]
      dsimp only []
      rw [if_neg (by simp [hobj]), if_neg hw0]
      rfl
    · rw [DataFrame.getCol_setCol_self]
      exact congrArg some (fillna_rolling_big ratMedianList w vs hw)

def dfC8w : DataFrame := ⟨[0, 1], [("x", [.num 1, .num 2])]⟩

theorem c8_large_window_witness :
    ∃ df', filter_data dfC8w ("x") ("median") 5 = some df' ∧
    ∃ out, df'.getCol ("x" ++ "_filtered") = some out ∧
      out.length = [Value.num 1, Value.num 2].length ∧
      (∀ v ∈ out, v.isNum = true) ∧
      ((("median" : String) = "moving_average" ∨ ("median" : String) = "median") →
        out = [Value.num 1, Value.num 2]) :=
  c8_large_window dfC8w ("x") ("median") 5 _ (Or.inr (Or.inr rfl)) rfl (by decide)
    (by norm_num)

/-! ### Claim C1 — `validate_experiment_data` accepts consistent tables -/

theorem coerceCol_getCol_self (df : DataFrame) (c : String) :
    (coerceCol df c).getCol c = (df.getCol c).map (List.map toNumericVal) := by
  unfold coerceCol
  cases hg : df.getCol c with
  | none => exact hg
  | some vs => rw [DataFrame.getCol_setCol_self]; rfl

theorem coerceCol_getCol_ne (df : DataFrame) (c c' : String) (h : c' ≠ c) :
    (coerceCol df c).getCol c' = df.getCol c' := by
  unfold coerceCol
  cases hg : df.getCol c with
  | none => rfl
  | some vs => rw [DataFrame.getCol_setCol_ne _ _ _ _ h]

theorem coerceCol_columns (df : DataFrame) (c : String) :
    (coerceCol df c).columns = df.columns := by
  unfold coerceCol
  cases hg : df.getCol c with
  | none => rfl
  | some vs => rw [DataFrame.columns_setCol_mem _ _ _ (df.getCol_mem c vs hg)]

theorem coerceCol_index (df : DataFrame) (c : String) :
    (coerceCol df c).index = df.index := by
  unfold coerceCol
  cases hg : df.getCol c with
  | none => rfl
  | some vs => rw [DataFrame.index_setCol]

theorem coerceCols_columns (df : DataFrame) :
    (coerceCols df).columns = df.columns := by
  unfold coerceCols
  rw [coerceCol_columns, coerceCol_columns, coerceCol_columns]

theorem map_toNumericVal_of_isNum (l : List Value) (h : ∀ v ∈ l, v.isNum = true) :
    l.map toNumericVal = l := by
  induction l with
  | nil => rfl
  | cons v r ih =>
    rw [List.map_cons, ih (fun x hx => h x (List.mem_cons_of_mem _ hx))]
    have hv : v.isNum = true := h v (List.mem_cons_self _ _)
    cases v with
    | num q => rfl
    | nan => exact absurd hv (by simp [Value.isNum])
    | str s => exact absurd hv (by simp [Value.isNum])
    | time t => exact absurd hv (by simp [Value.isNum])
    | bool b => exact absurd hv (by simp [Value.isNum])

theorem any_isNan_false (vs : List Value) (h : ∀ v ∈ vs, v.isNum = true) :
    vs.any Value.isNan = false := by
  rw [List.any_eq_false]
  intro v hv
  cases v with
  | num q => simp [Value.isNan]
  | nan => exact absurd (h _ hv) (by simp [Value.isNum])
  | str s => simp [Value.isNan]
  | time t => simp [Value.isNan]
  | bool b => simp [Value.isNan]

set_option maxHeartbeats 1000000 in
/-- Claim C1: a table in which — after column aliasing — `电流`, `电压`,
`功率` are all present, all-numeric, with current in `[0, 1000]`, voltage in
`[0, 10000]`, and each row's power within the 5% relative tolerance
`|power − current·voltage| ≤ current·voltage·0.05`, validates with
`valid = true` and an empty error list.  (`hnd` restricts to well-formed
tables: the spec's data model makes each row a mapping, so column labels
are unique — with duplicated labels pandas would raise inside the call.) -/
theorem c1_valid_consistent_table (df : DataFrame) (I V P : List Value)
    (_hnd : df.columns.Nodup)
    (hI : (normalizeCols df).getCol ("电流") = some I)
    (hV : (normalizeCols df).getCol ("电压") = some V)
    (hP : (normalizeCols df).getCol ("功率") = some P)
    (hIn : ∀ v ∈ I, ∃ q : ℚ, v = .num q ∧ 0 ≤ q ∧ q ≤ 1000)
    (hVn : ∀ v ∈ V, ∃ q : ℚ, v = .num q ∧ 0 ≤ q ∧ q ≤ 10000)
    (hPn : ∀ v ∈ P, ∃ q : ℚ, v = .num q)
    (hcons : ∀ (i : ℕ) (a b p : ℚ), I.get? i = some (.num a) → V.get? i = some (.num b) →
      P.get? i = some (.num p) → |p - a * b| ≤ a * b * (1/20)) :
    (validate_experiment_data df).1 = true ∧ (validate_experiment_data df).2.1 = [] := by
  have hIn' : ∀ v ∈ I, v.isNum = true := by
    intro v hv; rcases hIn v hv with ⟨q, rfl, _, _⟩; rfl
  have hVn' : ∀ v ∈ V, v.isNum = true := by
    intro v hv; rcases hVn v hv with ⟨q, rfl, _, _⟩; rfl
  have hPn' : ∀ v ∈ P, v.isNum = true := by
    intro v hv; rcases hPn v hv with ⟨q, rfl⟩; rfl
  have hI2 : (coerceCols (normalizeCols df)).getCol ("电流") = some I := by
    unfold coerceCols
    rw [coerceCol_getCol_ne _ _ _ (by decide), coerceCol_getCol_ne _ _ _ (by decide),
      coerceCol_getCol_self, hI]
    simp [map_toNumericVal_of_isNum I hIn']
  have hV2 : (coerceCols (normalizeCols df)).getCol ("电压") = some V := by
    unfold coerceCols
    rw [coerceCol_getCol_ne _ _ _ (by decide), coerceCol_getCol_self,
      coerceCol_getCol_ne _ _ _ (by decide), hV]
    simp [map_toNumericVal_of_isNum V hVn']
  have hP2 : (coerceCols (normalizeCols df)).getCol ("功率") = some P := by
    unfold coerceCols
    rw [coerceCol_getCol_self, coerceCol_getCol_ne _ _ _ (by decide),
      coerceCol_getCol_ne _ _ _ (by decide), hP]
    simp [map_toNumericVal_of_isNum P hPn']
  have hmemI : ("电流") ∈ (normalizeCols df).columns := DataFrame.getCol_mem _ _ _ hI
  have hmemV : ("电压") ∈ (normalizeCols df).columns := DataFrame.getCol_mem _ _ _ hV
  have hmemP : ("功率") ∈ (normalizeCols df).columns := DataFrame.getCol_mem _ _ _ hP
  have hmiss : missingErrors (normalizeCols df) = [] := by
    unfold missingErrors
    have hfil : requiredColumns.filter
        (fun c => decide (c ∉ (normalizeCols df).columns)) = [] := by
      rw [List.filter_eq_nil]
      intro a ha
      have ha3 : a = "电流" ∨ a = "电压" ∨ a = "功率" := by
        simpa [requiredColumns] using ha
      rcases ha3 with rfl | rfl | rfl <;> simp [hmemI, hmemV, hmemP]
    rw [hfil]
    rfl
  have hnume : numericErrors (coerceCols (normalizeCols df)) = [] := by
    have nI : ¬ ∃ x ∈ I, x.isNan = true := by
      rintro ⟨x, hx, hnan⟩
      have hn := hIn' x hx
      cases x <;> simp_all [Value.isNum, Value.isNan]
    have nV : ¬ ∃ x ∈ V, x.isNan = true := by
      rintro ⟨x, hx, hnan⟩
      have hn := hVn' x hx
      cases x <;> simp_all [Value.isNum, Value.isNan]
    have nP : ¬ ∃ x ∈ P, x.isNan = true := by
      rintro ⟨x, hx, hnan⟩
      have hn := hPn' x hx
      cases x <;> simp_all [Value.isNum, Value.isNan]
    unfold numericErrors requiredColumns
    simp [List.filterMap_cons, hI2, hV2, hP2, nI, nV, nP]
  have hrange : rangeErrors (coerceCols (normalizeCols df)) = [] := by
    unfold rangeErrors
    rw [hI2, hV2]
    have h1 : I.any (fun v => valLt v 0) = false := by
      rw [List.any_eq_false]
      intro v hv
      rcases hIn v hv with ⟨q, rfl, h0, _⟩
      simp [valLt, not_lt.mpr h0]
    have h2 : I.any (fun v => valGt v 1000) = false := by
      rw [List.any_eq_false]
      intro v hv
      rcases hIn v hv with ⟨q, rfl, _, h1000⟩
      simp [valGt, not_lt.mpr h1000]
    have h3 : V.any (fun v => valLt v 0) = false := by
      rw [List.any_eq_false]
      intro v hv
      rcases hVn v hv with ⟨q, rfl, h0, _⟩
      simp [valLt, not_lt.mpr h0]
    have h4 : V.any (fun v => valGt v 10000) = false := by
      rw [List.any_eq_false]
      intro v hv
      rcases hVn v hv with ⟨q, rfl, _, h10000⟩
      simp [valGt, not_lt.mpr h10000]
    simp [h1, h2, h3, h4]
  have hpow : powerErrors (coerceCols (normalizeCols df)) = [] := by
    unfold powerErrors
    rw [if_pos (show ("电流") ∈ (coerceCols (normalizeCols df)).columns ∧
        ("电压") ∈ (coerceCols (normalizeCols df)).columns ∧
        ("功率") ∈ (coerceCols (normalizeCols df)).columns from by
      rw [coerceCols_columns]
      exact ⟨hmemI, hmemV, hmemP⟩)]
    rw [hI2, hV2, hP2]
    dsimp only [Option.getD_some]
    have hflag : (List.zipWith (fun d c => vGt d (vMul c (.num (1/20))))
        (List.zipWith (fun p c => vAbs (vSub p c)) P (List.zipWith vMul I V))
        (List.zipWith vMul I V)).any id = false := by
      rw [List.any_eq_false]
      intro x hx
      rcases List.mem_iff_get?.mp hx with ⟨i, hi⟩
      rw [zipWith_getElem?] at hi
      rcases Option.bind_eq_some.mp hi with ⟨d, hd, hx2⟩
      rcases Option.map_eq_some'.mp hx2 with ⟨c, hc, hx3⟩
      rw [zipWith_getElem?] at hd hc
      rcases Option.bind_eq_some.mp hd with ⟨p, hp, hd2⟩
      rcases Option.map_eq_some'.mp hd2 with ⟨c', hc', hd3⟩
      rcases Option.bind_eq_some.mp hc with ⟨a, ha, hc2⟩
      rcases Option.map_eq_some'.mp hc2 with ⟨b, hb, hc3⟩
      have hcc : c' = c := by
        rw [zipWith_getElem?] at hc'
        rcases Option.bind_eq_some.mp hc' with ⟨a', ha', hc2'⟩
        rcases Option.map_eq_some'.mp hc2' with ⟨b', hb', hc3'⟩
        rw [ha] at ha'
        rw [hb] at hb'
        injection ha' with ha''
        injection hb' with hb''
        rw [← hc3, ← hc3', ha'', hb'']
      rcases hIn a (List.get?_mem ha) with ⟨qa, rfl, h0a, h1a⟩
      rcases hVn b (List.get?_mem hb) with ⟨qb, rfl, h0b, h1b⟩
      rcases hPn p (List.get?_mem hp) with ⟨qp, rfl⟩
      subst hc3
      subst hcc
      subst hd3
      subst hx3
      simp only [vMul, vSub, vAbs, vGt, id_eq, decide_eq_true_eq]
      exact not_lt.mpr (hcons i qa qb qp ha hb hp)
    rw [if_neg (by rw [hflag]; decide)]
  have herrs : (validate_experiment_data df).2.1 = [] := by
    unfold validate_experiment_data
    dsimp only []
    rw [hmiss, hnume, hrange, hpow]
    rfl
  refine ⟨?_, herrs⟩
  unfold validate_experiment_data at herrs ⊢
  dsimp only [] at herrs ⊢
  rw [herrs]
  rfl

def dfC1w : DataFrame :=
  ⟨[0], [("current", [.num 2]), ("V", [.num 3]), ("power", [.num (61/10)])]⟩

theorem c1_valid_consistent_table_witness :
    (validate_experiment_data dfC1w).1 = true ∧
    (validate_experiment_data dfC1w).2.1 = [] :=
  c1_valid_consistent_table dfC1w [.num 2] [.num 3] [.num (61/10)]
    (by decide) rfl rfl rfl
    (by
      intro v hv
      simp only [List.mem_singleton] at hv
      subst hv
      exact ⟨2, rfl, by norm_num, by norm_num⟩)
    (by
      intro v hv
      simp only [List.mem_singleton] at hv
      subst hv
      exact ⟨3, rfl, by norm_num, by norm_num⟩)
    (by
      intro v hv
      simp only [List.mem_singleton] at hv
      subst hv
      exact ⟨61/10, rfl⟩)
    (by
      intro i a b p ha hb hp
      cases i with
      | zero =>
        simp only [List.get?] at ha hb hp
        injection ha with ha'
        injection hb with hb'
        injection hp with hp'
        injection ha' with ha''
        injection hb' with hb''
        injection hp' with hp''
        rw [← ha'', ← hb'', ← hp'']
        rw [show |(61 : ℚ)/10 - 2 * 3| = 1/10 from by norm_num]
        norm_num
      | succ j => exact absurd ha (by simp))

/-! ### Claim C9 — idempotence of `validate_experiment_data` -/

/-- The state the alias-normalisation loop establishes for one group: the
canonical name is present, or no alias of the group is. -/
def GroupResolved (cn : String) (alts : List String) (df : DataFrame) : Prop :=
  cn ∈ df.columns ∨ ∀ al ∈ alts, al ∉ df.columns

theorem columns_renameCol (df : DataFrame) (a b : String) :
    (df.renameCol a b).columns = df.columns.map (fun n => if n = a then b else n) := by
  unfold DataFrame.renameCol DataFrame.columns
  rw [List.map_map, List.map_map]
  apply List.map_congr_left
  intro p _
  by_cases hp : p.1 = a <;> simp [hp]

theorem find?_mem_columns (l : List String) (df : DataFrame) (a : String)
    (h : l.find? (fun x => decide (x ∈ df.columns)) = some a) :
    a ∈ df.columns ∧ a ∈ l := by
  induction l with
  | nil => exact absurd h (by simp)
  | cons x r ih =>
    by_cases hx : x ∈ df.columns
    · rw [List.find?_cons_of_pos _ (by simp [hx])] at h
      cases h
      exact ⟨hx, List.mem_cons_self _ _⟩
    · rw [List.find?_cons_of_neg _ (by simp [hx])] at h
      rcases ih h with ⟨h1, h2⟩
      exact ⟨h1, List.mem_cons_of_mem _ h2⟩

theorem mem_columns_renameCol_of_ne (df : DataFrame) (a b x : String)
    (hxa : x ≠ a) (hxb : x ≠ b) :
    x ∈ (df.renameCol a b).columns ↔ x ∈ df.columns := by
  rw [columns_renameCol]
  constructor
  · intro hx
    rcases List.mem_map.mp hx with ⟨n, hn, he⟩
    by_cases hna : n = a
    · rw [if_pos hna] at he
      exact absurd he.symm hxb
    · rw [if_neg hna] at he
      exact he ▸ hn
  · intro hx
    exact List.mem_map.mpr ⟨x, hx, by rw [if_neg hxa]⟩

theorem mem_renameCol_target (df : DataFrame) (a b : String) (ha : a ∈ df.columns) :
    b ∈ (df.renameCol a b).columns := by
  rw [columns_renameCol]
  exact List.mem_map.mpr ⟨a, ha, by rw [if_pos rfl]⟩

theorem groupStep_resolved (cn : String) (alts : List String) (df : DataFrame) :
    GroupResolved cn alts (groupStep cn alts df) := by
  unfold groupStep
  by_cases h : cn ∈ df.columns
  · rw [if_pos h]
    exact Or.inl h
  · rw [if_neg h]
    cases hf : alts.find? (fun al => decide (al ∈ df.columns)) with
    | none =>
      right
      intro al hal
      have hn := List.find?_eq_none.mp hf al hal
      simpa using hn
    | some a =>
      left
      exact mem_renameCol_target df a cn (find?_mem_columns alts df a hf).1

theorem groupStep_identity (cn : String) (alts : List String) (df : DataFrame)
    (h : GroupResolved cn alts df) : groupStep cn alts df = df := by
  unfold groupStep
  by_cases hcn : cn ∈ df.columns
  · rw [if_pos hcn]
  · rw [if_neg hcn]
    rcases h with h | h
    · exact absurd h hcn
    · rw [List.find?_eq_none.mpr (fun al hal => by simp [h al hal])]

theorem groupStep_mem_iff (cn : String) (alts : List String) (df : DataFrame)
    (x : String) (hx1 : x ≠ cn) (hx2 : x ∉ alts) :
    x ∈ (groupStep cn alts df).columns ↔ x ∈ df.columns := by
  unfold groupStep
  by_cases h : cn ∈ df.columns
  · rw [if_pos h]
  · rw [if_neg h]
    cases hf : alts.find? (fun al => decide (al ∈ df.columns)) with
    | none => exact Iff.rfl
    | some a =>
      exact mem_columns_renameCol_of_ne df a cn x
        (fun he => hx2 (he ▸ (find?_mem_columns alts df a hf).2)) hx1

theorem groupResolved_transport (cn : String) (alts : List String) (df df' : DataFrame)
    (h : ∀ x, (x = cn ∨ x ∈ alts) → (x ∈ df'.columns ↔ x ∈ df.columns))
    (hr : GroupResolved cn alts df) : GroupResolved cn alts df' := by
  rcases hr with h1 | h2
  · exact Or.inl ((h cn (Or.inl rfl)).mpr h1)
  · exact Or.inr (fun al hal ha => h2 al hal ((h al (Or.inr hal)).mp ha))

theorem normalizeCols_resolved (df : DataFrame) :
    GroupResolved ("电流") currentAlts (normalizeCols df) ∧
    GroupResolved ("电压") voltageAlts (normalizeCols df) ∧
    GroupResolved ("功率") powerAlts (normalizeCols df) := by
  refine ⟨?_, ?_, ?_⟩
  · apply groupResolved_transport _ _ _ _ ?_
      (groupStep_resolved ("电流") currentAlts df)
    intro x hx
    have hx5 : x = "电流" ∨ x = "current" ∨ x = "Current" ∨ x = "I" ∨ x = "i" := by
      rcases hx with rfl | hx
      · exact Or.inl rfl
      · simpa [currentAlts] using Or.inr (by simpa [currentAlts] using hx)
    unfold normalizeCols
    rcases hx5 with rfl | rfl | rfl | rfl | rfl <;>
      rw [groupStep_mem_iff _ _ _ _ (by decide) (by decide),
        groupStep_mem_iff _ _ _ _ (by decide) (by decide)]
  · apply groupResolved_transport _ _ _ _ ?_
      (groupStep_resolved ("电压") voltageAlts (groupStep ("电流") currentAlts df))
    intro x hx
    have hx5 : x = "电压" ∨ x = "voltage" ∨ x = "Voltage" ∨ x = "V" ∨ x = "v" := by
      rcases hx with rfl | hx
      · exact Or.inl rfl
      · simpa [voltageAlts] using Or.inr (by simpa [voltageAlts] using hx)
    unfold normalizeCols
    rcases hx5 with rfl | rfl | rfl | rfl | rfl <;>
      rw [groupStep_mem_iff _ _ _ _ (by decide) (by decide)]
  · exact groupStep_resolved ("功率") powerAlts _

theorem normalizeCols_identity (df : DataFrame)
    (h1 : GroupResolved ("电流") currentAlts df)
    (h2 : GroupResolved ("电压") voltageAlts df)
    (h3 : GroupResolved ("功率") powerAlts df) :
    normalizeCols df = df := by
  unfold normalizeCols
  rw [groupStep_identity _ _ _ h1, groupStep_identity _ _ _ h2,
    groupStep_identity _ _ _ h3]

theorem DataFrame.eq_of (d d' : DataFrame) (h1 : d.index = d'.index)
    (h2 : d.cols = d'.cols) : d = d' := by
  cases d
  cases d'
  cases h1
  cases h2
  rfl

theorem map_toNumericVal_idem (l : List Value) :
    (l.map toNumericVal).map toNumericVal = l.map toNumericVal := by
  rw [List.map_map]
  apply List.map_congr_left
  intro v _
  exact toNumericVal_idem v

/-- The pointwise effect of `coerceCol` on one named column (requires unique
column labels). -/
def coerceEntry (c : String) (p : String × List Value) : String × List Value :=
  if p.1 = c then (c, p.2.map toNumericVal) else p

theorem find?_of_mem_nodup (l : List (String × List Value)) (c : String)
    (p : String × List Value) (hnd : (l.map Prod.fst).Nodup) (hp : p ∈ l)
    (hpc : p.1 = c) : l.find? (fun x => decide (x.1 = c)) = some p := by
  induction l with
  | nil => exact absurd hp (by simp)
  | cons q qs ih =>
    rw [List.map_cons, List.nodup_cons] at hnd
    by_cases hq : q.1 = c
    · rw [List.find?_cons_of_pos _ (by simp [hq])]
      rcases List.mem_cons.mp hp with rfl | hmem
      · rfl
      · have hmm : q.1 ∈ List.map Prod.fst qs := by
          rw [hq, ← hpc]
          exact List.mem_map_of_mem Prod.fst hmem
        exact absurd hmm hnd.1
    · rw [List.find?_cons_of_neg _ (by simp [hq])]
      rcases List.mem_cons.mp hp with rfl | hmem
      · exact absurd hpc hq
      · exact ih hnd.2 hmem

theorem getCol_eq_of_mem_nodup (d : DataFrame) (c : String) (p : String × List Value)
    (hnd : d.columns.Nodup) (hp : p ∈ d.cols) (hpc : p.1 = c) :
    d.getCol c = some p.2 := by
  unfold DataFrame.getCol
  rw [find?_of_mem_nodup d.cols c p hnd hp hpc]
  rfl

theorem coerceCol_cols_nodup (d : DataFrame) (c : String) (hnd : d.columns.Nodup) :
    (coerceCol d c).cols = d.cols.map (coerceEntry c) := by
  unfold coerceCol
  cases hg : d.getCol c with
  | none =>
    have hnc : c ∉ d.columns := (d.getCol_eq_none c).mp hg
    have : d.cols.map (coerceEntry c) = d.cols.map id := by
      apply List.map_congr_left
      intro p hp
      have hpc : p.1 ≠ c := fun he => hnc (he ▸ List.mem_map_of_mem Prod.fst hp)
      simp [coerceEntry, hpc]
    rw [this, List.map_id]
  | some vs =>
    dsimp only []
    unfold DataFrame.setCol
    rw [if_pos (d.getCol_mem c vs hg)]
    show d.cols.map (fun p => if p.1 = c then (c, vs.map toNumericVal) else p) = _
    apply List.map_congr_left
    intro p hp
    by_cases hpc : p.1 = c
    · have := getCol_eq_of_mem_nodup d c p hnd hp hpc
      rw [hg] at this
      injection this with hvs
      rw [coerceEntry, if_pos hpc, hvs, if_pos hpc]
    · rw [coerceEntry, if_neg hpc]
      simp [hpc]

theorem coerceEntry_fst (c : String) (p : String × List Value) :
    (coerceEntry c p).1 = p.1 := by
  unfold coerceEntry
  by_cases hp : p.1 = c <;> simp [hp]

theorem coerceCols_cols_nodup (d : DataFrame) (hnd : d.columns.Nodup) :
    (coerceCols d).cols = d.cols.map
      (fun p => coerceEntry ("功率") (coerceEntry ("电压") (coerceEntry ("电流") p))) := by
  have hnd1 : (coerceCol d ("电流")).columns.Nodup := by
    rw [coerceCol_columns]; exact hnd
  have hnd2 : (coerceCol (coerceCol d ("电流")) ("电压")).columns.Nodup := by
    rw [coerceCol_columns, coerceCol_columns]; exact hnd
  unfold coerceCols
  rw [coerceCol_cols_nodup _ _ hnd2, coerceCol_cols_nodup _ _ hnd1,
    coerceCol_cols_nodup _ _ hnd, List.map_map, List.map_map]
  rfl

theorem coerceEntry_triple_idem (p : String × List Value) :
    coerceEntry ("功率") (coerceEntry ("电压") (coerceEntry ("电流")
      (coerceEntry ("功率") (coerceEntry ("电压") (coerceEntry ("电流") p)))))
    = coerceEntry ("功率") (coerceEntry ("电压") (coerceEntry ("电流") p)) := by
  obtain ⟨n, vs⟩ := p
  by_cases h1 : n = "电流"
  · subst h1
    simp [coerceEntry, map_toNumericVal_idem, toNumericVal_idem]
  · by_cases h2 : n = "电压"
    · subst h2
      simp [coerceEntry, map_toNumericVal_idem, toNumericVal_idem]
    · by_cases h3 : n = "功率"
      · subst h3
        simp [coerceEntry, map_toNumericVal_idem, toNumericVal_idem]
      · simp [coerceEntry, h1, h2, h3]

theorem coerceCols_index (d : DataFrame) : (coerceCols d).index = d.index := by
  unfold coerceCols
  rw [coerceCol_index, coerceCol_index, coerceCol_index]

set_option maxHeartbeats 1000000 in
theorem coerceCols_idem (d : DataFrame) (hnd : d.columns.Nodup) :
    coerceCols (coerceCols d) = coerceCols d := by
  have hnd' : (coerceCols d).columns.Nodup := by
    rw [coerceCols_columns]; exact hnd
  apply DataFrame.eq_of
  · rw [coerceCols_index]
  · rw [coerceCols_cols_nodup _ hnd', coerceCols_cols_nodup _ hnd, List.map_map]
    apply List.map_congr_left
    intro p _
    exact coerceEntry_triple_idem p

theorem nodup_renameCol (df : DataFrame) (a b : String) (hnd : df.columns.Nodup)
    (hb : b ∉ df.columns) : (df.renameCol a b).columns.Nodup := by
  rw [columns_renameCol]
  apply List.Nodup.map_on ?_ hnd
  intro x hx y hy he
  by_cases hxa : x = a <;> by_cases hya : y = a
  · rw [hxa, hya]
  · rw [if_pos hxa, if_neg hya] at he
    exact absurd (he ▸ hy) hb
  · rw [if_neg hxa, if_pos hya] at he
    exact absurd (he ▸ hx) hb
  · rwa [if_neg hxa, if_neg hya] at he

theorem nodup_groupStep (cn : String) (alts : List String) (df : DataFrame)
    (hnd : df.columns.Nodup) : (groupStep cn alts df).columns.Nodup := by
  unfold groupStep
  by_cases h : cn ∈ df.columns
  · rwa [if_pos h]
  · rw [if_neg h]
    cases hf : alts.find? (fun al => decide (al ∈ df.columns)) with
    | none => exact hnd
    | some a => exact nodup_renameCol df a cn hnd h

theorem nodup_normalizeCols (df : DataFrame) (hnd : df.columns.Nodup) :
    (normalizeCols df).columns.Nodup := by
  unfold normalizeCols
  exact nodup_groupStep _ _ _ (nodup_groupStep _ _ _ (nodup_groupStep _ _ _ hnd))

theorem missingErrors_columns (d d' : DataFrame) (h : d.columns = d'.columns) :
    missingErrors d = missingErrors d' := by
  unfold missingErrors
  rw [h]

/-- Claim C9: `validate_experiment_data` is idempotent.  Its in-place
normalisation reaches a fixed point: a second application to the mutated
table renames nothing (every alias group is resolved) and re-coercing the
already-coerced columns changes nothing, so the second call reports exactly
the first call's error list and validity flag.  (`hnd`: unique column
labels, the spec's row-as-mapping data model — with duplicate labels the
first pandas call raises instead of returning a table.) -/
theorem c9_idempotent (df : DataFrame) (hnd : df.columns.Nodup) :
    (validate_experiment_data (validate_experiment_data df).2.2).2.1
      = (validate_experiment_data df).2.1 ∧
    (validate_experiment_data (validate_experiment_data df).2.2).1
      = (validate_experiment_data df).1 := by
  have hnd1 : (normalizeCols df).columns.Nodup := nodup_normalizeCols df hnd
  have hres := normalizeCols_resolved df
  have htransp : ∀ x : String,
      x ∈ (coerceCols (normalizeCols df)).columns ↔ x ∈ (normalizeCols df).columns := by
    intro x
    rw [coerceCols_columns]
  have hres2 :
      GroupResolved ("电流") currentAlts (coerceCols (normalizeCols df)) ∧
      GroupResolved ("电压") voltageAlts (coerceCols (normalizeCols df)) ∧
      GroupResolved ("功率") powerAlts (coerceCols (normalizeCols df)) :=
    ⟨groupResolved_transport _ _ _ _ (fun x _ => htransp x) hres.1,
     groupResolved_transport _ _ _ _ (fun x _ => htransp x) hres.2.1,
     groupResolved_transport _ _ _ _ (fun x _ => htransp x) hres.2.2⟩
  have hA : normalizeCols (coerceCols (normalizeCols df)) = coerceCols (normalizeCols df) :=
    normalizeCols_identity _ hres2.1 hres2.2.1 hres2.2.2
  have hB : coerceCols (coerceCols (normalizeCols df)) = coerceCols (normalizeCols df) :=
    coerceCols_idem _ hnd1
  have hmiss : missingErrors (coerceCols (normalizeCols df))
      = missingErrors (normalizeCols df) :=
    missingErrors_columns _ _ (coerceCols_columns _)
  unfold validate_experiment_data
  dsimp only []
  rw [hA, hB, hmiss]
  exact ⟨rfl, rfl⟩

def dfC9w : DataFrame :=
  ⟨[0, 1], [("current", [.num 1, .str "oops"]), ("extra", [.str "a", .str "b"])]⟩

theorem c9_idempotent_witness :
    (validate_experiment_data (validate_experiment_data dfC9w).2.2).2.1
      = (validate_experiment_data dfC9w).2.1 ∧
    (validate_experiment_data (validate_experiment_data dfC9w).2.2).1
      = (validate_experiment_data dfC9w).1 :=
  c9_idempotent dfC9w (by decide)
